import Mathlib

/-!
EC curve registry and key generation (`src/lib/crypto/ec.cpp`).

A shallow embedding of `ec.cpp`: the static curve table `ec_curves`, the lookups
`find_curve_by_OID`, `find_curve_by_name`, `get_curve_desc`, and the key generator
`ec_generate` run against an abstract primitive provider.

Conventions.
* Bytes, `size_t` values and enum values are natural numbers.
* A C buffer is the list of its readable bytes; a pointer that may be `NULL` is an `Option`.
* The provider (Botan FFI) and the big-integer allocator are external: they are a record of
  response functions, and every call made to them is appended to a call trace.
-/

namespace EC

/-! ## Enumerations and constants declared in headers -/

/-- Modelled from the spec: `pgp_curve_t` (declared in `types.h`) is an enumeration whose
value 0 is the unknown sentinel; it is used as an index, so it is a natural number. -/
abbrev pgp_curve_t := Nat

/-- Modelled from the spec: the unknown sentinel of `pgp_curve_t`, value 0. -/
def PGP_CURVE_UNKNOWN : pgp_curve_t := 0
/-- Modelled from the spec: the enum values follow the order of the rows of `ec_curves`. -/
def PGP_CURVE_NIST_P_256 : pgp_curve_t := 1
/-- Modelled from the spec: the enum values follow the order of the rows of `ec_curves`. -/
def PGP_CURVE_NIST_P_384 : pgp_curve_t := 2
/-- Modelled from the spec: the enum values follow the order of the rows of `ec_curves`. -/
def PGP_CURVE_NIST_P_521 : pgp_curve_t := 3
/-- Modelled from the spec: the enum values follow the order of the rows of `ec_curves`. -/
def PGP_CURVE_ED25519 : pgp_curve_t := 4
/-- Modelled from the spec: the enum values follow the order of the rows of `ec_curves`. -/
def PGP_CURVE_SM2_P_256 : pgp_curve_t := 5
/-- Modelled from the spec: the out-of-range sentinel, one past the last curve; it is the
number of rows of `ec_curves`. -/
def PGP_CURVE_MAX : pgp_curve_t := 6

/-- Modelled from the spec: `pgp_pubkey_alg_t` (declared in `types.h`); only three tags have
a row in `ec_algo_to_botan`, every other tag is `other n`. -/
inductive pgp_pubkey_alg_t where
  | PGP_PKA_ECDH
  | PGP_PKA_ECDSA
  | PGP_PKA_SM2
  | other (n : Nat)
deriving DecidableEq, Repr

/-- Modelled from the spec: the status codes of `rnp_result_t` that `ec_generate` returns. -/
inductive rnp_result_t where
  | RNP_SUCCESS
  | RNP_ERROR_BAD_PARAMETERS
  | RNP_ERROR_OUT_OF_MEMORY
  | RNP_ERROR_KEY_GENERATION
deriving DecidableEq, Repr

/-- Modelled from the spec: the macro `BITS_TO_BYTES` of `utils.h`, the number of bytes
needed for the given number of bits, rounded up. -/
def BITS_TO_BYTES (bits : Nat) : Nat := (bits + 7) / 8

/-! ## The curve table -/

/-- The row type of `ec_curves`; the field order is the order of the initialisers. A string
field that is `NULL` is `none`. `OIDhex` holds the bytes of the initialiser. -/
structure ec_curve_desc_t where
  rnp_curve_id : pgp_curve_t
  bitlen : Nat
  OIDhex : List Nat
  OIDhex_len : Nat
  botan_name : Option String
  pgp_name : Option String
deriving DecidableEq, Repr

/-- The static table `ec_curves`. -/
def ec_curves : List ec_curve_desc_t :=
  [ ⟨PGP_CURVE_UNKNOWN, 0, [0], 0, none, none⟩,
    ⟨PGP_CURVE_NIST_P_256, 256, [0x2A, 0x86, 0x48, 0xCE, 0x3D, 0x03, 0x01, 0x07], 8,
      some "secp256r1", some "NIST P-256"⟩,
    ⟨PGP_CURVE_NIST_P_384, 384, [0x2B, 0x81, 0x04, 0x00, 0x22], 5,
      some "secp384r1", some "NIST P-384"⟩,
    ⟨PGP_CURVE_NIST_P_521, 521, [0x2B, 0x81, 0x04, 0x00, 0x23], 5,
      some "secp521r1", some "NIST P-521"⟩,
    ⟨PGP_CURVE_ED25519, 255, [0x2b, 0x06, 0x01, 0x04, 0x01, 0xda, 0x47, 0x0f, 0x01], 9,
      some "Ed25519", some "Ed25519"⟩,
    ⟨PGP_CURVE_SM2_P_256, 256, [0x2A, 0x81, 0x1C, 0xCF, 0x55, 0x01, 0x82, 0x2D], 8,
      some "sm2p256v1", some "SM2 P-256"⟩ ]

/-- The row `ec_curves[i]`; every use has `i < PGP_CURVE_MAX`, inside the table. -/
def ec_curves_at (i : Nat) : ec_curve_desc_t :=
  ec_curves.getD i ⟨PGP_CURVE_UNKNOWN, 0, [0], 0, none, none⟩

/-- The row of `ec_algo_to_botan` for an algorithm tag. -/
def ec_algo_to_botan : List (pgp_pubkey_alg_t × String) :=
  [ (.PGP_PKA_ECDH, "ECDH"), (.PGP_PKA_ECDSA, "ECDSA"), (.PGP_PKA_SM2, "SM2_Sig") ]

/-- Modelled from the spec: `pgp_str_from_map` (in `utils`) looks the tag up in the map and
gives the string of its row; `none` stands for what it gives to a tag without a row, which
the caller passes on to the provider as it is. -/
def pgp_str_from_map (alg_id : pgp_pubkey_alg_t)
    (map : List (pgp_pubkey_alg_t × String)) : Option String :=
  (map.find? (fun r => r.1 == alg_id)).map Prod.snd

/-! ## Lookups -/

/-- The libc `memcmp` on the first `n` bytes of two buffers: 0 when they agree, otherwise
the sign of the first differing pair. A buffer that ends before `n` bytes is outside the
model (the call would read past it); such a comparison is reported as a difference. -/
def memcmp : List Nat → List Nat → Nat → Int
  | _, _, 0 => 0
  | a :: as, b :: bs, n + 1 => if a < b then -1 else if b < a then 1 else memcmp as bs n
  | [], _, _ + 1 => -1
  | _ :: _, [], _ + 1 => 1

/-- The function `find_curve_by_OID`: the loop runs `i` over `0 .. PGP_CURVE_MAX - 1` and
returns the first `i` that passes the test, `PGP_CURVE_MAX` when none does. -/
def find_curve_by_OID (oid : List Nat) (oid_len : Nat) : pgp_curve_t :=
  ((List.range PGP_CURVE_MAX).find? (fun i =>
      oid_len == (ec_curves_at i).OIDhex_len &&
        memcmp oid (ec_curves_at i).OIDhex oid_len == 0)).getD PGP_CURVE_MAX

/-- The libc `strcmp` as used here: only equality with 0 is tested. -/
def strcmp (a b : String) : Int :=
  if a = b then 0 else if a < b then -1 else 1

/-- The function `find_curve_by_name`: the loop runs `i` over `1 .. PGP_CURVE_MAX - 1`; rows
1 and up all have a name, the `none` branch is never taken. -/
def find_curve_by_name (name : String) : pgp_curve_t :=
  match (List.range' 1 (PGP_CURVE_MAX - 1)).find? (fun i =>
      match (ec_curves_at i).pgp_name with
      | some n => strcmp n name == 0
      | none => false) with
  | some i => (ec_curves_at i).rnp_curve_id
  | none => PGP_CURVE_MAX

/-- The function `get_curve_desc`: the row of the table, or `NULL`. -/
def get_curve_desc (curve_id : pgp_curve_t) : Option ec_curve_desc_t :=
  if curve_id < PGP_CURVE_MAX ∧ curve_id > 0 then some (ec_curves_at curve_id) else none

/-! ## Big integers and buffers -/

/-- Big-endian bytes of `v` without leading zero bytes, by recursion on a bound `fuel` on
the number of bytes (`v` itself always suffices); zero has no bytes. -/
def be_bytes : Nat → Nat → List Nat
  | 0, _ => []
  | fuel + 1, v => if v = 0 then [] else be_bytes fuel (v / 256) ++ [v % 256]

/-- Modelled from the spec: `bn_bn2bin` (big-integer library) emits the value big-endian in
its natural width; the result here is the byte string, which the caller places in a
buffer. -/
def bn_bn2bin (v : Nat) : List Nat := be_bytes v v

/-- Modelled from the spec: `bn_num_bytes` (big-integer library) measures the byte length of
the value, the width of what `bn_bn2bin` emits. -/
def bn_num_bytes (v : Nat) : Nat := (bn_bn2bin v).length

/-- Reading a byte string as a big-endian unsigned integer. -/
def be_decode (bytes : List Nat) : Nat := bytes.foldl (fun acc b => acc * 256 + b) 0

/-- A byte string left-padded with zero bytes to width `n`. -/
def pad_left (n : Nat) (bytes : List Nat) : List Nat :=
  List.replicate (n - bytes.length) 0 ++ bytes

/-- The libc `memset` on a buffer: the first `n` bytes become `c`. -/
def memset (buf : List Nat) (c n : Nat) : List Nat :=
  List.replicate (min n buf.length) c ++ buf.drop n

/-- Storing the byte string `src` into `buf` from offset `off` on (what a callee does with
the destination pointer `&buf[off]`). -/
def write_at (buf : List Nat) (off : Nat) (src : List Nat) : List Nat :=
  buf.take off ++ src ++ buf.drop (off + src.length)

/-- Modelled from the spec: `pgp_mpi_t` (declared in `types.h`), a fixed-capacity byte array
`mpi` and a length `len`; the capacity `sizeof(mpi)` is the length of the list. -/
structure pgp_mpi_t where
  mpi : List Nat
  len : Nat
deriving DecidableEq, Repr

/-- Modelled from the spec: the fields of `pgp_ec_key_t` that `ec_generate` refers to, the
public point `p` and the secret scalar `x`. -/
structure pgp_ec_key_t where
  p : pgp_mpi_t
  x : pgp_mpi_t
deriving DecidableEq, Repr

/-- Modelled from the spec: `bn2mpi` (big-integer library) encodes the value into an MPI,
big-endian from the start of the array, and sets its length. -/
def bn2mpi (v : Nat) (val : pgp_mpi_t) : pgp_mpi_t :=
  { mpi := write_at val.mpi 0 (bn_bn2bin v), len := bn_num_bytes v }

/-! ## The provider and the call trace -/

/-- A non-null handle given out by the provider or by the big-integer allocator. -/
abbrev Handle := Nat

/-- The external world of one `ec_generate` call. A response `none` is a failure: a non-zero
return code of a Botan entry point (its output handle stays `NULL`), or `NULL` from `bn_new`.
`bn_new k` answers the allocation number `k` of the call. A field read that succeeds gives
the value stored in the big-integer holder. -/
structure Provider where
  botan_privkey_create : Option String → Option String → Nat → Option Handle
  botan_privkey_export_pubkey : Handle → Option Handle
  bn_new : Nat → Option Handle
  botan_pubkey_get_field : Handle → String → Option Nat
  botan_privkey_get_field : Handle → String → Option Nat

/-- One call that `ec_generate` makes to the provider or to the allocator, with its
arguments and what it gave back. -/
inductive Call where
  | botan_privkey_create (algo params : Option String) (rng : Nat) (out : Option Handle)
  | botan_privkey_export_pubkey (key : Handle) (out : Option Handle)
  | bn_new (out : Option Handle)
  | botan_pubkey_get_field (bn key : Handle) (field : String) (out : Option Nat)
  | botan_privkey_get_field (bn key : Handle) (field : String) (out : Option Nat)
  | botan_privkey_destroy (key : Option Handle)
  | botan_pubkey_destroy (key : Option Handle)
  | bn_free (bn : Option Handle)
deriving DecidableEq, Repr

/-- The local variables of `ec_generate` on arrival at the label `end`, with the caller's key
record and the calls made so far. -/
structure Frame where
  pr_key : Option Handle
  pu_key : Option Handle
  px : Option Handle
  py : Option Handle
  x : Option Handle
  ret : rnp_result_t
  key : pgp_ec_key_t
  trace : List Call
deriving DecidableEq, Repr

/-- What a call of `ec_generate` leaves behind: the returned status, the caller's key record
and all calls made, in order. -/
structure Outcome where
  ret : rnp_result_t
  key : pgp_ec_key_t
  trace : List Call
deriving DecidableEq, Repr

/-! ## The key generator -/

/-- The encoding block of `ec_generate` (from `memset` to `bn2mpi`), reached once the width
check has passed: the new content of the caller's key record. The two offsets are those of
the source; the width check has made `x_bytes ≤ filed_byte_size` and
`y_bytes ≤ filed_byte_size`, so the subtractions do not wrap. -/
def ec_generate_encode (key : pgp_ec_key_t) (filed_byte_size vx vy vs : Nat) : pgp_ec_key_t :=
  let x_bytes := bn_num_bytes vx
  let y_bytes := bn_num_bytes vy
  let m0 := memset key.p.mpi 0 key.p.mpi.length
  let m1 := m0.set 0 0x04
  let m2 := write_at m1 (1 + filed_byte_size - x_bytes) (bn_bn2bin vx)
  let m3 := write_at m2 (1 + filed_byte_size + (filed_byte_size - y_bytes)) (bn_bn2bin vy)
  { p := { mpi := m3, len := 2 * filed_byte_size + 1 }, x := bn2mpi vs key.x }

/-- The body of `ec_generate` up to the label `end`: every `goto end` is a branch that stops
with the frame as it is then. `RNP_LOG` is not modelled. -/
def ec_generate_body (P : Provider) (rng : Nat) (key : pgp_ec_key_t)
    (alg_id : pgp_pubkey_alg_t) (curve : pgp_curve_t) : Frame :=
  let f0 : Frame :=
    { pr_key := none, pu_key := none, px := none, py := none, x := none,
      ret := .RNP_ERROR_KEY_GENERATION, key := key, trace := [] }
  match get_curve_desc curve with
  | none => { f0 with ret := .RNP_ERROR_BAD_PARAMETERS }
  | some ec_desc =>
    let filed_byte_size := BITS_TO_BYTES ec_desc.bitlen
    let algo := pgp_str_from_map alg_id ec_algo_to_botan
    let pr_key := P.botan_privkey_create algo ec_desc.botan_name rng
    let f1 : Frame :=
      { f0 with pr_key := pr_key,
                trace := [.botan_privkey_create algo ec_desc.botan_name rng pr_key] }
    match pr_key with
    | none => f1
    | some pr =>
      let pu_key := P.botan_privkey_export_pubkey pr
      let f2 : Frame :=
        { f1 with pu_key := pu_key,
                  trace := f1.trace ++ [.botan_privkey_export_pubkey pr pu_key] }
      match pu_key with
      | none => f2
      | some pu =>
        let px := P.bn_new 0
        let py := P.bn_new 1
        let x := P.bn_new 2
        let f3 : Frame :=
          { f2 with px := px, py := py, x := x,
                    trace := f2.trace ++ [.bn_new px, .bn_new py, .bn_new x] }
        match px, py, x with
        | some bx, some b_y, some bs =>
          let rx := P.botan_pubkey_get_field pu "public_x"
          let f4 : Frame :=
            { f3 with trace := f3.trace ++ [.botan_pubkey_get_field bx pu "public_x" rx] }
          match rx with
          | none => f4
          | some vx =>
            let ry := P.botan_pubkey_get_field pu "public_y"
            let f5 : Frame :=
              { f4 with trace := f4.trace ++ [.botan_pubkey_get_field b_y pu "public_y" ry] }
            match ry with
            | none => f5
            | some vy =>
              let rs := P.botan_privkey_get_field pr "x"
              let f6 : Frame :=
                { f5 with trace := f5.trace ++ [.botan_privkey_get_field bs pr "x" rs] }
              match rs with
              | none => f6
              | some vs =>
                let x_bytes := bn_num_bytes vx
                let y_bytes := bn_num_bytes vy
                if x_bytes > filed_byte_size ∨ y_bytes > filed_byte_size then
                  { f6 with ret := .RNP_ERROR_BAD_PARAMETERS }
                else
                  { f6 with key := ec_generate_encode key filed_byte_size vx vy vs,
                            ret := .RNP_SUCCESS }
        | _, _, _ => { f3 with ret := .RNP_ERROR_OUT_OF_MEMORY }

/-- The five release calls after the label `end`, on the local variables as they are. -/
def ec_generate_epilogue (f : Frame) : List Call :=
  [ .botan_privkey_destroy f.pr_key, .botan_pubkey_destroy f.pu_key,
    .bn_free f.px, .bn_free f.py, .bn_free f.x ]

/-- The function `ec_generate`: the body, then the releases, then `return ret`. -/
def ec_generate (P : Provider) (rng : Nat) (key : pgp_ec_key_t)
    (alg_id : pgp_pubkey_alg_t) (curve : pgp_curve_t) : Outcome :=
  let f := ec_generate_body P rng key alg_id curve
  { ret := f.ret, key := f.key, trace := f.trace ++ ec_generate_epilogue f }

/-! ## Reading the call trace -/

/-- Whether a call is a release (one of the two destroy entry points or `bn_free`). -/
def Call.is_release : Call → Bool
  | .botan_privkey_destroy _ => true
  | .botan_pubkey_destroy _ => true
  | .bn_free _ => true
  | _ => false

/-- Whether a call is one of the provider entry points that create, export or read. -/
def Call.is_provider_work : Call → Bool
  | .botan_privkey_create _ _ _ _ => true
  | .botan_privkey_export_pubkey _ _ => true
  | .botan_pubkey_get_field _ _ _ _ => true
  | .botan_privkey_get_field _ _ _ _ => true
  | _ => false

/-- Whether a call enters the provider at all (create, export, field read, destroy). -/
def Call.is_provider : Call → Bool
  | .botan_privkey_destroy _ => true
  | .botan_pubkey_destroy _ => true
  | c => c.is_provider_work

/-- A resource that is owned by a call of `ec_generate` once acquired: a provider private
key, a provider public key, or a big-integer holder, each with its non-null handle. -/
inductive Resource where
  | privkey (h : Handle)
  | pubkey (h : Handle)
  | bignum (h : Handle)
deriving DecidableEq, Repr

/-- The resource that a call acquired, if it acquired one (a failed call acquires none). -/
def Call.acquired : Call → Option Resource
  | .botan_privkey_create _ _ _ out => out.map .privkey
  | .botan_privkey_export_pubkey _ out => out.map .pubkey
  | .bn_new out => out.map .bignum
  | _ => none

/-- The resource that a call released, if it released one (a release of `NULL` releases
none). -/
def Call.released : Call → Option Resource
  | .botan_privkey_destroy h => h.map .privkey
  | .botan_pubkey_destroy h => h.map .pubkey
  | .bn_free h => h.map .bignum
  | _ => none

/-- The resources held in the local variables of a frame, in the order of the epilogue. -/
def Frame.owned (f : Frame) : List Resource :=
  [f.pr_key.map .privkey, f.pu_key.map .pubkey, f.px.map .bignum, f.py.map .bignum,
    f.x.map .bignum].filterMap id

/-- The place of a call in the fixed order of steps of `ec_generate`: 1 private key
creation, 2 public key export, 3 allocation of the three holders, 4 read of `public_x`,
5 read of `public_y`, 6 read of the private `x`; the releases of the epilogue come last. -/
def Call.step : Call → Nat
  | .botan_privkey_create _ _ _ _ => 1
  | .botan_privkey_export_pubkey _ _ => 2
  | .bn_new _ => 3
  | .botan_pubkey_get_field _ _ field _ => if field = "public_x" then 4 else 5
  | .botan_privkey_get_field _ _ _ _ => 6
  | _ => 7

/-- Whether a call failed: a provider entry point that gave a non-zero return code, or
`bn_new` that gave `NULL`. A release does not fail. -/
def Call.failed : Call → Bool
  | .botan_privkey_create _ _ _ out => out.isNone
  | .botan_privkey_export_pubkey _ out => out.isNone
  | .bn_new out => out.isNone
  | .botan_pubkey_get_field _ _ _ out => out.isNone
  | .botan_privkey_get_field _ _ _ out => out.isNone
  | _ => false

/-- The status named by the specification for a failure of the given call: out-of-memory for
an allocation, key-generation-failure for a provider step. -/
def Call.failure_status : Call → rnp_result_t
  | .bn_new _ => .RNP_ERROR_OUT_OF_MEMORY
  | _ => .RNP_ERROR_KEY_GENERATION

/-- A scripted provider for examples: every step succeeds, the handles are 1 to 5, and the
three fields read as `vx`, `vy`, `vs`. -/
def scripted (vx vy vs : Nat) : Provider :=
  { botan_privkey_create := fun _ _ _ => some 1
    botan_privkey_export_pubkey := fun _ => some 2
    bn_new := fun k => some (3 + k)
    botan_pubkey_get_field := fun _ f => if f = "public_x" then some vx else some vy
    botan_privkey_get_field := fun _ _ => some vs }

/-- A provider for examples that refuses every private key creation; the later entry points
answer as `scripted 1 2 7`, the allocator gives `NULL`. -/
def refusing : Provider :=
  { scripted 1 2 7 with
    botan_privkey_create := fun _ _ _ => none
    bn_new := fun _ => none }

/-- A key record for examples: both arrays have capacity `cap` and hold the byte `fill`. -/
def blank_key (cap fill : Nat) : pgp_ec_key_t :=
  { p := { mpi := List.replicate cap fill, len := 0 },
    x := { mpi := List.replicate cap fill, len := 0 } }

end EC

namespace EC

/-! ## Lemmas on the lookups -/

theorem range_curve_max : List.range PGP_CURVE_MAX = [0, 1, 2, 3, 4, 5] := by decide

/-- The model of `memcmp` gives 0 exactly when both buffers have `n` bytes and these agree. -/
theorem memcmp_eq_zero_iff (a b : List Nat) (n : Nat) :
    memcmp a b n = 0 ↔ n ≤ a.length ∧ n ≤ b.length ∧ a.take n = b.take n := by
  induction n generalizing a b with
  | zero => simp [memcmp]
  | succ n ih =>
    cases a with
    | nil => simp [memcmp]
    | cons x xs =>
      cases b with
      | nil => simp [memcmp]
      | cons y ys =>
        simp only [memcmp, List.length_cons, List.take_succ_cons, List.cons.injEq,
          Nat.add_le_add_iff_right]
        by_cases hlt : x < y
        · simp only [hlt, if_true]
          constructor
          · intro h; exact absurd h (by decide)
          · rintro ⟨_, _, hxy, _⟩; omega
        · by_cases hgt : y < x
          · simp only [hlt, hgt, if_true, if_false]
            constructor
            · intro h; exact absurd h (by decide)
            · rintro ⟨_, _, hxy, _⟩; omega
          · have hxy : x = y := by omega
            subst hxy
            simp only [hlt, if_false, ih, true_and]

/-- Away from the empty input the scan of `find_curve_by_OID` is exact: a non-empty input
that agrees with no row 1 to 5 in length and bytes gives `PGP_CURVE_MAX`. -/
theorem find_curve_by_OID_miss_nonempty (oid : List Nat) (oid_len : Nat) (h0 : oid_len ≠ 0)
    (hmiss : ∀ i, 0 < i → i < PGP_CURVE_MAX →
      ¬ (oid_len = (ec_curves_at i).OIDhex_len ∧
          oid.take oid_len = (ec_curves_at i).OIDhex.take oid_len)) :
    find_curve_by_OID oid oid_len = PGP_CURVE_MAX := by
  have key : ∀ i, i < PGP_CURVE_MAX →
      (oid_len == (ec_curves_at i).OIDhex_len &&
        memcmp oid (ec_curves_at i).OIDhex oid_len == 0) = false := by
    intro i hi
    rcases Nat.eq_zero_or_pos i with rfl | hpos
    · have : (ec_curves_at 0).OIDhex_len = 0 := rfl
      simp [this, h0]
    · have hm := hmiss i hpos hi
      rw [Bool.and_eq_false_iff]
      by_cases hl : oid_len = (ec_curves_at i).OIDhex_len
      · right
        have hne : memcmp oid (ec_curves_at i).OIDhex oid_len ≠ 0 := by
          intro h
          exact hm ⟨hl, ((memcmp_eq_zero_iff _ _ _).1 h).2.2⟩
        simpa using hne
      · left
        simpa using hl
  unfold find_curve_by_OID
  rw [range_curve_max]
  simp only [List.find?_cons, key 0 (by decide), key 1 (by decide), key 2 (by decide),
    key 3 (by decide), key 4 (by decide), key 5 (by decide), List.find?_nil, Option.getD_none]

/-! ## Lemmas on bytes and buffers -/

theorem be_bytes_zero (fuel : Nat) : be_bytes fuel 0 = [] := by
  cases fuel <;> simp [be_bytes]

theorem be_bytes_fuel (fuel fuel2 v : Nat) (h : v ≤ fuel) (h2 : v ≤ fuel2) :
    be_bytes fuel v = be_bytes fuel2 v := by
  induction fuel generalizing v fuel2 with
  | zero =>
    have : v = 0 := by omega
    subst this
    simp [be_bytes, be_bytes_zero]
  | succ f ih =>
    by_cases hv : v = 0
    · subst hv; simp [be_bytes_zero]
    · obtain ⟨g, rfl⟩ : ∃ g, fuel2 = g + 1 := ⟨fuel2 - 1, by omega⟩
      have hd : v / 256 < v := Nat.div_lt_self (by omega) (by decide)
      simp only [be_bytes, hv, if_false]
      rw [ih g (v / 256) (by omega) (by omega)]

theorem bn_bn2bin_zero : bn_bn2bin 0 = [] := rfl

theorem bn_bn2bin_pos (v : Nat) (hv : v ≠ 0) :
    bn_bn2bin v = bn_bn2bin (v / 256) ++ [v % 256] := by
  obtain ⟨g, rfl⟩ : ∃ g, v = g + 1 := ⟨v - 1, by omega⟩
  have hd : (g + 1) / 256 < g + 1 := Nat.div_lt_self (by omega) (by decide)
  show be_bytes (g + 1) (g + 1) = be_bytes ((g + 1) / 256) ((g + 1) / 256) ++ _
  simp only [be_bytes, if_false, Nat.succ_ne_zero]
  rw [be_bytes_fuel g ((g + 1) / 256) ((g + 1) / 256) (by omega) (le_refl _)]

theorem be_decode_append_singleton (l : List Nat) (b : Nat) :
    be_decode (l ++ [b]) = be_decode l * 256 + b := by
  simp [be_decode, List.foldl_append]

theorem be_decode_bn_bn2bin (v : Nat) : be_decode (bn_bn2bin v) = v := by
  induction v using Nat.strong_induction_on with
  | _ v ih =>
    by_cases hv : v = 0
    · subst hv; rfl
    · rw [bn_bn2bin_pos v hv, be_decode_append_singleton,
        ih (v / 256) (Nat.div_lt_self (by omega) (by decide))]
      exact Nat.div_add_mod' v 256

theorem be_decode_replicate_zero_append (k : Nat) (l : List Nat) :
    be_decode (List.replicate k 0 ++ l) = be_decode l := by
  induction k with
  | zero => simp
  | succ k ih =>
    simp only [List.replicate_succ, List.cons_append]
    simpa [be_decode] using ih

theorem be_decode_pad_left (n v : Nat) : be_decode (pad_left n (bn_bn2bin v)) = v := by
  rw [pad_left, be_decode_replicate_zero_append, be_decode_bn_bn2bin]

theorem length_pad_left (n : Nat) (l : List Nat) (h : l.length ≤ n) :
    (pad_left n l).length = n := by
  simp [pad_left]; omega

theorem write_at_append (A R src : List Nat) (j : Nat) :
    write_at (A ++ R) (A.length + j) src = A ++ R.take j ++ src ++ R.drop (j + src.length) := by
  simp [write_at, List.take_append, List.drop_append, Nat.add_assoc]

theorem encode_layout (cap fb : Nat) (bx b_y : List Nat) (hx : bx.length ≤ fb)
    (hy : b_y.length ≤ fb) (hcap : 2 * fb + 1 ≤ cap) :
    write_at (write_at ((List.replicate cap 0).set 0 4) (1 + fb - bx.length) bx)
        (1 + fb + (fb - b_y.length)) b_y
      = 4 :: (pad_left fb bx ++ pad_left fb b_y) ++ List.replicate (cap - (2 * fb + 1)) 0 := by
  obtain ⟨r, rfl⟩ : ∃ r, cap = 2 * fb + 1 + r := ⟨cap - (2 * fb + 1), by omega⟩
  have h1 : (List.replicate (2 * fb + 1 + r) 0).set 0 4 = [4] ++ List.replicate (2 * fb + r) 0 := by
    rw [show 2 * fb + 1 + r = (2 * fb + r) + 1 by omega, List.replicate_succ]
    rfl
  have h2 : 1 + fb - bx.length = ([4] : List Nat).length + (fb - bx.length) := by
    simp; omega
  rw [h1, h2, write_at_append]
  have h3 : [4] ++ List.take (fb - bx.length) (List.replicate (2 * fb + r) 0) ++ bx
      = [4] ++ pad_left fb bx := by
    simp [pad_left, List.take_replicate]
    omega
  have h4 : List.drop (fb - bx.length + bx.length) (List.replicate (2 * fb + r) 0)
      = List.replicate (fb + r) 0 := by
    simp [List.drop_replicate]
    omega
  rw [h3, h4]
  have h5 : 1 + fb + (fb - b_y.length) = ([4] ++ pad_left fb bx).length + (fb - b_y.length) := by
    simp [length_pad_left fb bx hx]
    omega
  rw [h5, write_at_append]
  have h6 : List.take (fb - b_y.length) (List.replicate (fb + r) 0) ++ b_y = pad_left fb b_y := by
    simp [pad_left, List.take_replicate]
    omega
  have h7 : List.drop (fb - b_y.length + b_y.length) (List.replicate (fb + r) 0)
      = List.replicate r 0 := by
    simp [List.drop_replicate]
    omega
  rw [List.append_assoc ([4] ++ pad_left fb bx), h6, h7]
  simp
/-! ## Claims on the lookups -/

/-- C1 (evaluation of the code at the failing input): with `oid_len = 0`, whatever the
buffer, `find_curve_by_OID` stops at row 0 of the table, whose `OIDhex_len` is 0, and
returns `PGP_CURVE_UNKNOWN`, not `PGP_CURVE_MAX`. -/
theorem find_curve_by_OID_zero_length (oid : List Nat) :
    find_curve_by_OID oid 0 = PGP_CURVE_UNKNOWN ∧ find_curve_by_OID oid 0 ≠ PGP_CURVE_MAX := by
  have h : find_curve_by_OID oid 0 = PGP_CURVE_UNKNOWN := by
    unfold find_curve_by_OID
    rw [range_curve_max]
    have h0 : (ec_curves_at 0).OIDhex_len = 0 := rfl
    simp [List.find?_cons, h0, memcmp, PGP_CURVE_UNKNOWN]
  exact ⟨h, by rw [h]; decide⟩

/-- C2: for every curve id `i` with `0 < i < PGP_CURVE_MAX`, `get_curve_desc i` is row `i`
of the table, and `find_curve_by_OID` on the OID bytes and OID length of that row returns
`i`. -/
theorem find_curve_by_OID_round_trip (i : pgp_curve_t) (h0 : 0 < i) (h1 : i < PGP_CURVE_MAX) :
    get_curve_desc i = some (ec_curves_at i) ∧
      find_curve_by_OID (ec_curves_at i).OIDhex (ec_curves_at i).OIDhex_len = i := by
  have h6 : i < 6 := h1
  interval_cases i <;> exact ⟨by decide, by decide⟩

/-- C2 at NIST P-384: the bytes 2B 81 04 00 22 with length 5 give `PGP_CURVE_NIST_P_384`. -/
theorem find_curve_by_OID_round_trip_p384 :
    get_curve_desc PGP_CURVE_NIST_P_384 =
        some ⟨PGP_CURVE_NIST_P_384, 384, [0x2B, 0x81, 0x04, 0x00, 0x22], 5,
          some "secp384r1", some "NIST P-384"⟩ ∧
      find_curve_by_OID [0x2B, 0x81, 0x04, 0x00, 0x22] 5 = PGP_CURVE_NIST_P_384 :=
  find_curve_by_OID_round_trip PGP_CURVE_NIST_P_384 (by decide) (by decide)

/-! ## Lemmas on the key generator -/

/-- A call that returns `RNP_SUCCESS` went through every step: the curve has a descriptor,
every provider step and allocation succeeded, both coordinates passed the width check, and
the key record is the one written by the encoding block. -/
theorem ec_generate_success_inv (P : Provider) (rng : Nat) (key : pgp_ec_key_t)
    (alg_id : pgp_pubkey_alg_t) (curve : pgp_curve_t)
    (hs : (ec_generate P rng key alg_id curve).ret = .RNP_SUCCESS) :
    ∃ d pr pu bx b_y bs vx vy vs,
      get_curve_desc curve = some d ∧
      P.botan_privkey_create (pgp_str_from_map alg_id ec_algo_to_botan) d.botan_name rng
        = some pr ∧
      P.botan_privkey_export_pubkey pr = some pu ∧
      P.bn_new 0 = some bx ∧ P.bn_new 1 = some b_y ∧ P.bn_new 2 = some bs ∧
      P.botan_pubkey_get_field pu "public_x" = some vx ∧
      P.botan_pubkey_get_field pu "public_y" = some vy ∧
      P.botan_privkey_get_field pr "x" = some vs ∧
      bn_num_bytes vx ≤ BITS_TO_BYTES d.bitlen ∧
      bn_num_bytes vy ≤ BITS_TO_BYTES d.bitlen ∧
      (ec_generate P rng key alg_id curve).key
        = ec_generate_encode key (BITS_TO_BYTES d.bitlen) vx vy vs := by
  simp only [ec_generate, ec_generate_body] at hs ⊢
  split at hs
  · simp at hs
  · rename_i d hd
    split at hs
    · simp at hs
    · rename_i pr hpr
      split at hs
      · simp at hs
      · rename_i pu hpu
        split at hs
        · rename_i bx b_y bs hbx hby hbs
          split at hs
          · simp at hs
          · rename_i vx hvx
            split at hs
            · simp at hs
            · rename_i vy hvy
              split at hs
              · simp at hs
              · rename_i vs hvs
                split at hs
                · simp at hs
                · rename_i hw
                  refine ⟨d, pr, pu, bx, b_y, bs, vx, vy, vs, hd, hpr, hpu, hbx, hby, hbs,
                    hvx, hvy, hvs, by omega, by omega, ?_⟩
                  simp [hd, hpr, hpu, hbx, hby, hbs, hvx, hvy, hvs, hw]
        · simp at hs

/-- The bytes written by the encoding block when both coordinates fit the field width and the
array has room for the point: prefix, padded X, padded Y, then zeros up to the capacity. -/
theorem ec_generate_encode_mpi (key : pgp_ec_key_t) (fb vx vy vs : Nat)
    (hx : bn_num_bytes vx ≤ fb) (hy : bn_num_bytes vy ≤ fb)
    (hcap : 2 * fb + 1 ≤ key.p.mpi.length) :
    (ec_generate_encode key fb vx vy vs).p.mpi
      = 4 :: (pad_left fb (bn_bn2bin vx) ++ pad_left fb (bn_bn2bin vy))
          ++ List.replicate (key.p.mpi.length - (2 * fb + 1)) 0 := by
  have hm : memset key.p.mpi 0 key.p.mpi.length = List.replicate key.p.mpi.length 0 := by
    simp [memset]
  simp only [ec_generate_encode, hm, bn_num_bytes]
  exact encode_layout key.p.mpi.length fb (bn_bn2bin vx) (bn_bn2bin vy) hx hy hcap

/-- The public point after a successful call, in terms of the coordinates that the provider
returned in that call. -/
theorem ec_generate_success_point (P : Provider) (rng : Nat) (key : pgp_ec_key_t)
    (alg_id : pgp_pubkey_alg_t) (curve : pgp_curve_t) (d : ec_curve_desc_t)
    (pr pu : Handle) (vx vy : Nat)
    (hd : get_curve_desc curve = some d)
    (hpr : P.botan_privkey_create (pgp_str_from_map alg_id ec_algo_to_botan) d.botan_name rng
      = some pr)
    (hpu : P.botan_privkey_export_pubkey pr = some pu)
    (hx : P.botan_pubkey_get_field pu "public_x" = some vx)
    (hy : P.botan_pubkey_get_field pu "public_y" = some vy)
    (hcap : 2 * BITS_TO_BYTES d.bitlen + 1 ≤ key.p.mpi.length)
    (hs : (ec_generate P rng key alg_id curve).ret = .RNP_SUCCESS) :
    bn_num_bytes vx ≤ BITS_TO_BYTES d.bitlen ∧ bn_num_bytes vy ≤ BITS_TO_BYTES d.bitlen ∧
    (ec_generate P rng key alg_id curve).key.p.len = 2 * BITS_TO_BYTES d.bitlen + 1 ∧
    (ec_generate P rng key alg_id curve).key.p.mpi
      = 4 :: (pad_left (BITS_TO_BYTES d.bitlen) (bn_bn2bin vx)
              ++ pad_left (BITS_TO_BYTES d.bitlen) (bn_bn2bin vy))
          ++ List.replicate (key.p.mpi.length - (2 * BITS_TO_BYTES d.bitlen + 1)) 0 := by
  obtain ⟨d2, pr2, pu2, bx, b_y, bs, vx2, vy2, vs, hd2, hpr2, hpu2, -, -, -, hx2, hy2, -,
    hwx, hwy, hkey⟩ := ec_generate_success_inv P rng key alg_id curve hs
  obtain rfl : d = d2 := Option.some.inj (hd.symm.trans hd2)
  obtain rfl : pr = pr2 := Option.some.inj (hpr.symm.trans hpr2)
  obtain rfl : pu = pu2 := Option.some.inj (hpu.symm.trans hpu2)
  obtain rfl : vx = vx2 := Option.some.inj (hx.symm.trans hx2)
  obtain rfl : vy = vy2 := Option.some.inj (hy.symm.trans hy2)
  refine ⟨hwx, hwy, ?_, ?_⟩
  · rw [hkey]; rfl
  · rw [hkey]; exact ec_generate_encode_mpi key _ vx vy vs hwx hwy hcap

/-- The three parts of a laid-out point: the prefix byte and the two coordinate fields. -/
theorem point_fields (fb : Nat) (A B R : List Nat) (hA : A.length = fb) (hB : B.length = fb) :
    (4 :: (A ++ B) ++ R)[0]? = some 4 ∧
    ((4 :: (A ++ B) ++ R).drop 1).take fb = A ∧
    ((4 :: (A ++ B) ++ R).drop (fb + 1)).take fb = B ∧
    (4 :: (A ++ B) ++ R).take (2 * fb + 1) = 4 :: (A ++ B) := by
  subst hA
  refine ⟨by simp, ?_, ?_, ?_⟩
  · simp [List.take_append_eq_append_take]
  · simp [List.drop_append_eq_append_drop, List.take_append_eq_append_take, hB]
  · have h : 2 * A.length + 1 = (4 :: (A ++ B)).length := by simp [hB]; omega
    rw [h, List.take_left']
    rfl

/-! ## Claims on the encoded public point -/

/-- C3: on a successful `ec_generate` call for a curve with descriptor `d`, where the
provider returned the coordinates `vx` and `vy`, and with `fb = BITS_TO_BYTES d.bitlen`: the
point length is `2 * fb + 1` (65 for P-256, Ed25519 and SM2, 97 for P-384, 133 for P-521),
byte 0 is `0x04`, bytes `1 .. fb` are the big-endian bytes of `vx` left-padded with zeros to
exactly `fb` bytes, and bytes `fb + 1 .. 2 * fb` are those of `vy`, padded likewise. -/
theorem ec_generate_public_point (P : Provider) (rng : Nat) (key : pgp_ec_key_t)
    (alg_id : pgp_pubkey_alg_t) (curve : pgp_curve_t) (d : ec_curve_desc_t)
    (pr pu : Handle) (vx vy : Nat)
    (hd : get_curve_desc curve = some d)
    (hpr : P.botan_privkey_create (pgp_str_from_map alg_id ec_algo_to_botan) d.botan_name rng
      = some pr)
    (hpu : P.botan_privkey_export_pubkey pr = some pu)
    (hx : P.botan_pubkey_get_field pu "public_x" = some vx)
    (hy : P.botan_pubkey_get_field pu "public_y" = some vy)
    (hcap : 2 * BITS_TO_BYTES d.bitlen + 1 ≤ key.p.mpi.length)
    (hs : (ec_generate P rng key alg_id curve).ret = .RNP_SUCCESS) :
    (ec_generate P rng key alg_id curve).key.p.len = 2 * BITS_TO_BYTES d.bitlen + 1 ∧
    (ec_generate P rng key alg_id curve).key.p.mpi[0]? = some 0x04 ∧
    ((ec_generate P rng key alg_id curve).key.p.mpi.drop 1).take (BITS_TO_BYTES d.bitlen)
      = pad_left (BITS_TO_BYTES d.bitlen) (bn_bn2bin vx) ∧
    ((ec_generate P rng key alg_id curve).key.p.mpi.drop (BITS_TO_BYTES d.bitlen + 1)).take
        (BITS_TO_BYTES d.bitlen)
      = pad_left (BITS_TO_BYTES d.bitlen) (bn_bn2bin vy) ∧
    (pad_left (BITS_TO_BYTES d.bitlen) (bn_bn2bin vx)).length = BITS_TO_BYTES d.bitlen ∧
    (pad_left (BITS_TO_BYTES d.bitlen) (bn_bn2bin vy)).length = BITS_TO_BYTES d.bitlen ∧
    (ec_generate P rng key alg_id curve).key.p.mpi.take (2 * BITS_TO_BYTES d.bitlen + 1)
      = 0x04 :: (pad_left (BITS_TO_BYTES d.bitlen) (bn_bn2bin vx)
                  ++ pad_left (BITS_TO_BYTES d.bitlen) (bn_bn2bin vy)) ∧
    (curve = PGP_CURVE_NIST_P_256 ∨ curve = PGP_CURVE_ED25519 ∨ curve = PGP_CURVE_SM2_P_256 →
      (ec_generate P rng key alg_id curve).key.p.len = 65) ∧
    (curve = PGP_CURVE_NIST_P_384 → (ec_generate P rng key alg_id curve).key.p.len = 97) ∧
    (curve = PGP_CURVE_NIST_P_521 → (ec_generate P rng key alg_id curve).key.p.len = 133) := by
  obtain ⟨hwx, hwy, hlen, hmpi⟩ :=
    ec_generate_success_point P rng key alg_id curve d pr pu vx vy hd hpr hpu hx hy hcap hs
  have hA := length_pad_left (BITS_TO_BYTES d.bitlen) (bn_bn2bin vx) hwx
  have hB := length_pad_left (BITS_TO_BYTES d.bitlen) (bn_bn2bin vy) hwy
  obtain ⟨f0, f1, f2, f3⟩ := point_fields (BITS_TO_BYTES d.bitlen) _ _
    (List.replicate (key.p.mpi.length - (2 * BITS_TO_BYTES d.bitlen + 1)) 0) hA hB
  rw [← hmpi] at f0 f1 f2 f3
  refine ⟨hlen, f0, f1, f2, hA, hB, f3, ?_, ?_, ?_⟩
  · rintro (rfl | rfl | rfl) <;>
      · obtain rfl : _ = d := Option.some.inj hd
        rw [hlen]; rfl
  · rintro rfl
    obtain rfl : _ = d := Option.some.inj hd
    rw [hlen]; rfl
  · rintro rfl
    obtain rfl : _ = d := Option.some.inj hd
    rw [hlen]; rfl

/-- C3 at P-256 with `X = 1`, `Y = 2`, on a 65-byte array that held the byte 9 everywhere: the
call succeeds and the point is `04`, 31 zero bytes, `01`, 31 zero bytes, `02`, with length
65. -/
theorem ec_generate_public_point_p256 :
    (ec_generate (scripted 1 2 7) 0 (blank_key 65 9) .PGP_PKA_ECDSA PGP_CURVE_NIST_P_256).ret
      = .RNP_SUCCESS ∧
    (ec_generate (scripted 1 2 7) 0 (blank_key 65 9) .PGP_PKA_ECDSA
      PGP_CURVE_NIST_P_256).key.p.len = 65 ∧
    (ec_generate (scripted 1 2 7) 0 (blank_key 65 9) .PGP_PKA_ECDSA
      PGP_CURVE_NIST_P_256).key.p.mpi.take 65
      = 0x04 :: (List.replicate 31 0 ++ [0x01] ++ (List.replicate 31 0 ++ [0x02])) := by
  have h := ec_generate_public_point (scripted 1 2 7) 0 (blank_key 65 9) .PGP_PKA_ECDSA
    PGP_CURVE_NIST_P_256 (ec_curves_at 1) 1 2 1 2 (by decide) (by decide) (by decide)
    (by decide) (by decide) (by decide) (by decide)
  exact ⟨by decide, h.1, h.2.2.2.2.2.2.1⟩

/-- C4: on a successful `ec_generate` call, reading bytes `1 .. fb` of the public point as a
big-endian unsigned integer gives the provider's `public_x`, and reading bytes
`fb + 1 .. 2 * fb` gives the provider's `public_y`, where `fb = BITS_TO_BYTES d.bitlen`; both
coordinates have a byte length of at most `fb` on such a call. -/
theorem ec_generate_decode_round_trip (P : Provider) (rng : Nat) (key : pgp_ec_key_t)
    (alg_id : pgp_pubkey_alg_t) (curve : pgp_curve_t) (d : ec_curve_desc_t)
    (pr pu : Handle) (vx vy : Nat)
    (hd : get_curve_desc curve = some d)
    (hpr : P.botan_privkey_create (pgp_str_from_map alg_id ec_algo_to_botan) d.botan_name rng
      = some pr)
    (hpu : P.botan_privkey_export_pubkey pr = some pu)
    (hx : P.botan_pubkey_get_field pu "public_x" = some vx)
    (hy : P.botan_pubkey_get_field pu "public_y" = some vy)
    (hcap : 2 * BITS_TO_BYTES d.bitlen + 1 ≤ key.p.mpi.length)
    (hs : (ec_generate P rng key alg_id curve).ret = .RNP_SUCCESS) :
    be_decode (((ec_generate P rng key alg_id curve).key.p.mpi.drop 1).take
      (BITS_TO_BYTES d.bitlen)) = vx ∧
    be_decode (((ec_generate P rng key alg_id curve).key.p.mpi.drop
      (BITS_TO_BYTES d.bitlen + 1)).take (BITS_TO_BYTES d.bitlen)) = vy ∧
    bn_num_bytes vx ≤ BITS_TO_BYTES d.bitlen ∧ bn_num_bytes vy ≤ BITS_TO_BYTES d.bitlen := by
  obtain ⟨hwx, hwy, -, hmpi⟩ :=
    ec_generate_success_point P rng key alg_id curve d pr pu vx vy hd hpr hpu hx hy hcap hs
  have hA := length_pad_left (BITS_TO_BYTES d.bitlen) (bn_bn2bin vx) hwx
  have hB := length_pad_left (BITS_TO_BYTES d.bitlen) (bn_bn2bin vy) hwy
  obtain ⟨-, f1, f2, -⟩ := point_fields (BITS_TO_BYTES d.bitlen) _ _
    (List.replicate (key.p.mpi.length - (2 * BITS_TO_BYTES d.bitlen + 1)) 0) hA hB
  rw [← hmpi] at f1 f2
  rw [f1, f2, be_decode_pad_left, be_decode_pad_left]
  exact ⟨rfl, rfl, hwx, hwy⟩

/-- C4 at P-384 with `X = 0` and `Y = 258` (two bytes, so 46 leading zero bytes in its
field): the call succeeds and both fields decode to the provider's values. -/
theorem ec_generate_decode_round_trip_p384 :
    (ec_generate (scripted 0 258 7) 0 (blank_key 97 9) .PGP_PKA_ECDH PGP_CURVE_NIST_P_384).ret
      = .RNP_SUCCESS ∧
    be_decode (((ec_generate (scripted 0 258 7) 0 (blank_key 97 9) .PGP_PKA_ECDH
      PGP_CURVE_NIST_P_384).key.p.mpi.drop 1).take 48) = 0 ∧
    be_decode (((ec_generate (scripted 0 258 7) 0 (blank_key 97 9) .PGP_PKA_ECDH
      PGP_CURVE_NIST_P_384).key.p.mpi.drop 49).take 48) = 258 := by
  have h := ec_generate_decode_round_trip (scripted 0 258 7) 0 (blank_key 97 9) .PGP_PKA_ECDH
    PGP_CURVE_NIST_P_384 (ec_curves_at 2) 1 2 0 258 (by decide) (by decide) (by decide)
    (by decide) (by decide) (by decide) (by decide)
  exact ⟨by decide, h.1, h.2.1⟩

/-- A curve id that is 0 or at least `PGP_CURVE_MAX` has no descriptor. -/
theorem get_curve_desc_none_of_out_of_range (curve : Nat)
    (h : curve = 0 ∨ PGP_CURVE_MAX ≤ curve) : get_curve_desc curve = none := by
  have h6 : curve = 0 ∨ 6 ≤ curve := h
  unfold get_curve_desc
  rw [if_neg]
  intro hc
  have h1 : curve < 6 := hc.1
  have h2 : 0 < curve := hc.2
  omega

/-! ## Claims on the failure paths -/

/-- C5: for a curve id without descriptor (`curve = 0` or `curve ≥ PGP_CURVE_MAX`), whatever
the algorithm tag, the provider and the prior content of the key record, `ec_generate`
returns `RNP_ERROR_BAD_PARAMETERS` and the key record is unchanged. -/
theorem ec_generate_bad_curve (P : Provider) (rng : Nat) (key : pgp_ec_key_t)
    (alg_id : pgp_pubkey_alg_t) (curve : pgp_curve_t)
    (h : curve = 0 ∨ PGP_CURVE_MAX ≤ curve) :
    get_curve_desc curve = none ∧
    (ec_generate P rng key alg_id curve).ret = .RNP_ERROR_BAD_PARAMETERS ∧
    (ec_generate P rng key alg_id curve).key = key := by
  have hd := get_curve_desc_none_of_out_of_range curve h
  simp [ec_generate, ec_generate_body, hd]

/-- C5 at `curve = 0` with `PGP_PKA_ECDH`, on a key record that held the byte 9. -/
theorem ec_generate_bad_curve_zero :
    ((0 : pgp_curve_t) = 0 ∨ PGP_CURVE_MAX ≤ 0) ∧
    get_curve_desc 0 = none ∧
    (ec_generate (scripted 1 2 7) 0 (blank_key 65 9) .PGP_PKA_ECDH 0).ret
      = .RNP_ERROR_BAD_PARAMETERS ∧
    (ec_generate (scripted 1 2 7) 0 (blank_key 65 9) .PGP_PKA_ECDH 0).key = blank_key 65 9 :=
  ⟨by decide, ec_generate_bad_curve (scripted 1 2 7) 0 (blank_key 65 9) .PGP_PKA_ECDH 0
    (by decide)⟩

/-- C6 as stated fails: with `curve = 0` the call does enter the provider, through its two
destroy entry points, so not every call of the trace is outside the provider. -/
theorem ec_generate_bad_curve_enters_provider :
    ¬ (∀ c ∈ (ec_generate (scripted 1 2 7) 0 (blank_key 65 9) .PGP_PKA_ECDH 0).trace,
        c.is_provider = false) := by
  decide

/-- C6 (amended): for `curve = 0` or `curve ≥ PGP_CURVE_MAX` the calls made are exactly the
five releases of the epilogue, each on `NULL`; none of them creates a key, exports a key,
reads a field or allocates. -/
theorem ec_generate_bad_curve_trace (P : Provider) (rng : Nat) (key : pgp_ec_key_t)
    (alg_id : pgp_pubkey_alg_t) (curve : pgp_curve_t)
    (h : curve = 0 ∨ PGP_CURVE_MAX ≤ curve) :
    (ec_generate P rng key alg_id curve).trace
      = [.botan_privkey_destroy none, .botan_pubkey_destroy none,
          .bn_free none, .bn_free none, .bn_free none] ∧
    (∀ c ∈ (ec_generate P rng key alg_id curve).trace,
        c.is_provider_work = false ∧ c.acquired = none ∧ c.released = none) := by
  have hd := get_curve_desc_none_of_out_of_range curve h
  have ht : (ec_generate P rng key alg_id curve).trace
      = [.botan_privkey_destroy none, .botan_pubkey_destroy none,
          .bn_free none, .bn_free none, .bn_free none] := by
    simp [ec_generate, ec_generate_body, ec_generate_epilogue, hd]
  rw [ht]
  exact ⟨rfl, by decide⟩

/-- C6 (amended) at `curve = PGP_CURVE_MAX` with `PGP_PKA_ECDSA`. -/
theorem ec_generate_bad_curve_trace_max :
    (PGP_CURVE_MAX = 0 ∨ PGP_CURVE_MAX ≤ PGP_CURVE_MAX) ∧
    (ec_generate (scripted 1 2 7) 0 (blank_key 65 9) .PGP_PKA_ECDSA PGP_CURVE_MAX).trace
      = [.botan_privkey_destroy none, .botan_pubkey_destroy none,
          .bn_free none, .bn_free none, .bn_free none] :=
  ⟨by decide, (ec_generate_bad_curve_trace (scripted 1 2 7) 0 (blank_key 65 9) .PGP_PKA_ECDSA
    PGP_CURVE_MAX (by decide)).1⟩

/-- C7: for a curve with descriptor `d`, when the three allocations succeed and the provider
fails at one step while every earlier step succeeded (private key creation; or public key
export; or reading `public_x`; or reading `public_y`; or reading the private `x`),
`ec_generate` returns `RNP_ERROR_KEY_GENERATION`. -/
theorem ec_generate_provider_failure (P : Provider) (rng : Nat) (key : pgp_ec_key_t)
    (alg_id : pgp_pubkey_alg_t) (curve : pgp_curve_t) (d : ec_curve_desc_t)
    (hd : get_curve_desc curve = some d)
    (halloc : ∃ bx b_y bs, P.bn_new 0 = some bx ∧ P.bn_new 1 = some b_y ∧ P.bn_new 2 = some bs)
    (hfail :
      P.botan_privkey_create (pgp_str_from_map alg_id ec_algo_to_botan) d.botan_name rng = none ∨
      ∃ pr, P.botan_privkey_create (pgp_str_from_map alg_id ec_algo_to_botan) d.botan_name rng
          = some pr ∧
        (P.botan_privkey_export_pubkey pr = none ∨
         ∃ pu, P.botan_privkey_export_pubkey pr = some pu ∧
          (P.botan_pubkey_get_field pu "public_x" = none ∨
           ∃ vx, P.botan_pubkey_get_field pu "public_x" = some vx ∧
            (P.botan_pubkey_get_field pu "public_y" = none ∨
             ∃ vy, P.botan_pubkey_get_field pu "public_y" = some vy ∧
              P.botan_privkey_get_field pr "x" = none)))) :
    (ec_generate P rng key alg_id curve).ret = .RNP_ERROR_KEY_GENERATION := by
  obtain ⟨bx, b_y, bs, hbx, hby, hbs⟩ := halloc
  rcases hfail with h | ⟨pr, hpr, h | ⟨pu, hpu, h | ⟨vx, hx, h | ⟨vy, hy, h⟩⟩⟩⟩
  · simp [ec_generate, ec_generate_body, hd, h]
  · simp [ec_generate, ec_generate_body, hd, hpr, h]
  · simp [ec_generate, ec_generate_body, hd, hpr, hpu, hbx, hby, hbs, h]
  · simp [ec_generate, ec_generate_body, hd, hpr, hpu, hbx, hby, hbs, hx, h]
  · simp [ec_generate, ec_generate_body, hd, hpr, hpu, hbx, hby, hbs, hx, hy, h]

/-- C7 at P-521 with a provider that fails at the last step, the read of the private `x`,
after every earlier step succeeded. -/
theorem ec_generate_provider_failure_private_x :
    (ec_generate { scripted 1 2 7 with botan_privkey_get_field := fun _ _ => none } 0
      (blank_key 65 9) .PGP_PKA_ECDSA PGP_CURVE_NIST_P_521).ret = .RNP_ERROR_KEY_GENERATION :=
  ec_generate_provider_failure { scripted 1 2 7 with botan_privkey_get_field := fun _ _ => none }
    0 (blank_key 65 9) .PGP_PKA_ECDSA PGP_CURVE_NIST_P_521 (ec_curves_at 3) (by decide)
    ⟨3, 4, 5, rfl, rfl, rfl⟩
    (Or.inr ⟨1, rfl, Or.inr ⟨2, rfl, Or.inr ⟨1, rfl, Or.inr ⟨2, rfl, rfl⟩⟩⟩⟩)

/-- C8: for a curve with descriptor `d`, when every provider step and allocation succeeded
and the byte length of `public_x` or of `public_y` exceeds `BITS_TO_BYTES d.bitlen`,
`ec_generate` returns `RNP_ERROR_BAD_PARAMETERS` and the key record is unchanged: neither the
`0x04` prefix, nor a coordinate byte, nor `len` is written (and the array is not zeroed). -/
theorem ec_generate_wide_coordinate (P : Provider) (rng : Nat) (key : pgp_ec_key_t)
    (alg_id : pgp_pubkey_alg_t) (curve : pgp_curve_t) (d : ec_curve_desc_t)
    (pr pu : Handle) (vx vy vs : Nat)
    (hd : get_curve_desc curve = some d)
    (hpr : P.botan_privkey_create (pgp_str_from_map alg_id ec_algo_to_botan) d.botan_name rng
      = some pr)
    (hpu : P.botan_privkey_export_pubkey pr = some pu)
    (halloc : ∃ bx b_y bs, P.bn_new 0 = some bx ∧ P.bn_new 1 = some b_y ∧ P.bn_new 2 = some bs)
    (hx : P.botan_pubkey_get_field pu "public_x" = some vx)
    (hy : P.botan_pubkey_get_field pu "public_y" = some vy)
    (hsx : P.botan_privkey_get_field pr "x" = some vs)
    (hwide : BITS_TO_BYTES d.bitlen < bn_num_bytes vx ∨ BITS_TO_BYTES d.bitlen < bn_num_bytes vy) :
    (ec_generate P rng key alg_id curve).ret = .RNP_ERROR_BAD_PARAMETERS ∧
    (ec_generate P rng key alg_id curve).key = key := by
  obtain ⟨bx, b_y, bs, hbx, hby, hbs⟩ := halloc
  have hw : bn_num_bytes vx > BITS_TO_BYTES d.bitlen ∨ bn_num_bytes vy > BITS_TO_BYTES d.bitlen :=
    hwide
  simp [ec_generate, ec_generate_body, hd, hpr, hpu, hbx, hby, hbs, hx, hy, hsx, hw]

/-- C8 at P-256 with `public_y = 256 ^ 32`, a value of 33 bytes against a field of 32. -/
theorem ec_generate_wide_coordinate_p256 :
    bn_num_bytes (256 ^ 32) = 33 ∧ BITS_TO_BYTES 256 = 32 ∧
    (ec_generate (scripted 1 (256 ^ 32) 7) 0 (blank_key 65 9) .PGP_PKA_ECDSA
      PGP_CURVE_NIST_P_256).ret = .RNP_ERROR_BAD_PARAMETERS ∧
    (ec_generate (scripted 1 (256 ^ 32) 7) 0 (blank_key 65 9) .PGP_PKA_ECDSA
      PGP_CURVE_NIST_P_256).key = blank_key 65 9 :=
  ⟨by decide, by decide,
    ec_generate_wide_coordinate (scripted 1 (256 ^ 32) 7) 0 (blank_key 65 9) .PGP_PKA_ECDSA
      PGP_CURVE_NIST_P_256 (ec_curves_at 1) 1 2 1 (256 ^ 32) 7 (by decide) rfl rfl
      ⟨3, 4, 5, rfl, rfl, rfl⟩ rfl rfl rfl (Or.inr (by decide))⟩

/-- C9: for a curve with descriptor `d`, when private key creation and public key export
succeed and at least one of the three allocations fails, `ec_generate` returns
`RNP_ERROR_OUT_OF_MEMORY`, whichever of the three failed. -/
theorem ec_generate_alloc_failure (P : Provider) (rng : Nat) (key : pgp_ec_key_t)
    (alg_id : pgp_pubkey_alg_t) (curve : pgp_curve_t) (d : ec_curve_desc_t) (pr pu : Handle)
    (hd : get_curve_desc curve = some d)
    (hpr : P.botan_privkey_create (pgp_str_from_map alg_id ec_algo_to_botan) d.botan_name rng
      = some pr)
    (hpu : P.botan_privkey_export_pubkey pr = some pu)
    (hfail : P.bn_new 0 = none ∨ P.bn_new 1 = none ∨ P.bn_new 2 = none) :
    (ec_generate P rng key alg_id curve).ret = .RNP_ERROR_OUT_OF_MEMORY := by
  simp only [ec_generate, ec_generate_body, hd, hpr, hpu]
  split
  · rename_i hbx hby hbs
    rcases hfail with h | h | h
    · rw [h] at hbx; exact absurd hbx (by simp)
    · rw [h] at hby; exact absurd hby (by simp)
    · rw [h] at hbs; exact absurd hbs (by simp)
  · rfl

/-- C9 at Ed25519 with an allocator that fails only on the second holder. -/
theorem ec_generate_alloc_failure_second :
    (ec_generate { scripted 1 2 7 with bn_new := fun k => if k = 1 then none else some (3 + k) }
      0 (blank_key 65 9) .PGP_PKA_ECDSA PGP_CURVE_ED25519).ret = .RNP_ERROR_OUT_OF_MEMORY :=
  ec_generate_alloc_failure
    { scripted 1 2 7 with bn_new := fun k => if k = 1 then none else some (3 + k) }
    0 (blank_key 65 9) .PGP_PKA_ECDSA PGP_CURVE_ED25519 (ec_curves_at 4) 1 2 (by decide) rfl rfl
    (Or.inr (Or.inl rfl))

/-! ## Claims on the release discipline -/

/-- On arrival at the label `end`, the local variables hold exactly the resources acquired so
far, in order of acquisition, and no release call has been made yet. -/
theorem ec_generate_body_owns (P : Provider) (rng : Nat) (key : pgp_ec_key_t)
    (alg_id : pgp_pubkey_alg_t) (curve : pgp_curve_t) :
    (ec_generate_body P rng key alg_id curve).trace.filterMap Call.acquired
      = (ec_generate_body P rng key alg_id curve).owned ∧
    (∀ c ∈ (ec_generate_body P rng key alg_id curve).trace, c.is_release = false) := by
  simp only [ec_generate_body]
  repeat' split
  all_goals simp_all [Frame.owned, Call.acquired, Call.is_release]
  rcases P.bn_new 0 with _ | a <;> rcases P.bn_new 1 with _ | b <;>
    rcases P.bn_new 2 with _ | c <;> simp [Call.acquired]

/-- The resources released by the epilogue are those held in the local variables. -/
theorem ec_generate_epilogue_releases (f : Frame) :
    (ec_generate_epilogue f).filterMap Call.released = f.owned ∧
    (ec_generate_epilogue f).filterMap Call.acquired = [] ∧
    (ec_generate_epilogue f).filter Call.is_release = ec_generate_epilogue f := by
  refine ⟨?_, ?_, ?_⟩
  · simp [ec_generate_epilogue, Frame.owned, Call.released, List.filterMap_cons]
  · simp [ec_generate_epilogue, Call.acquired]
  · simp [ec_generate_epilogue, Call.is_release]

/-- C10: on every return path of `ec_generate`, whatever the provider does, the calls made are
those of the body followed by the five releases of the epilogue, one for each of `pr_key`,
`pu_key`, `px`, `py`, `x`; these five are the only release calls of the whole call; the
resources released are exactly the resources acquired during the call, each once; and the
returned status is the one the body had set on arrival at the epilogue. -/
theorem ec_generate_release_discipline (P : Provider) (rng : Nat) (key : pgp_ec_key_t)
    (alg_id : pgp_pubkey_alg_t) (curve : pgp_curve_t) :
    (ec_generate P rng key alg_id curve).trace
      = (ec_generate_body P rng key alg_id curve).trace ++
          [ .botan_privkey_destroy (ec_generate_body P rng key alg_id curve).pr_key,
            .botan_pubkey_destroy (ec_generate_body P rng key alg_id curve).pu_key,
            .bn_free (ec_generate_body P rng key alg_id curve).px,
            .bn_free (ec_generate_body P rng key alg_id curve).py,
            .bn_free (ec_generate_body P rng key alg_id curve).x ] ∧
    (ec_generate P rng key alg_id curve).trace.filter Call.is_release
      = [ .botan_privkey_destroy (ec_generate_body P rng key alg_id curve).pr_key,
          .botan_pubkey_destroy (ec_generate_body P rng key alg_id curve).pu_key,
          .bn_free (ec_generate_body P rng key alg_id curve).px,
          .bn_free (ec_generate_body P rng key alg_id curve).py,
          .bn_free (ec_generate_body P rng key alg_id curve).x ] ∧
    (ec_generate P rng key alg_id curve).trace.filterMap Call.released
      = (ec_generate P rng key alg_id curve).trace.filterMap Call.acquired ∧
    (ec_generate P rng key alg_id curve).ret = (ec_generate_body P rng key alg_id curve).ret := by
  obtain ⟨hown, hnone⟩ := ec_generate_body_owns P rng key alg_id curve
  obtain ⟨hrel, hacq, hfil⟩ :=
    ec_generate_epilogue_releases (ec_generate_body P rng key alg_id curve)
  have hbody_filter :
      (ec_generate_body P rng key alg_id curve).trace.filter Call.is_release = [] := by
    rw [List.filter_eq_nil_iff]
    intro c hc
    simp [hnone c hc]
  have hbody_released :
      (ec_generate_body P rng key alg_id curve).trace.filterMap Call.released = [] := by
    rw [List.filterMap_eq_nil_iff]
    intro c hc
    have h := hnone c hc
    cases c <;> simp_all [Call.released, Call.is_release]
  refine ⟨rfl, ?_, ?_, rfl⟩
  · show ((ec_generate_body P rng key alg_id curve).trace ++
        ec_generate_epilogue (ec_generate_body P rng key alg_id curve)).filter Call.is_release = _
    rw [List.filter_append, hbody_filter, hfil]
    rfl
  · show ((ec_generate_body P rng key alg_id curve).trace ++
        ec_generate_epilogue (ec_generate_body P rng key alg_id curve)).filterMap Call.released
      = ((ec_generate_body P rng key alg_id curve).trace ++
        ec_generate_epilogue (ec_generate_body P rng key alg_id curve)).filterMap Call.acquired
    rw [List.filterMap_append, List.filterMap_append, hbody_released, hrel, hacq, hown]
    simp

/-! ## Claims on the registry -/

/-- The model of `strcmp` gives 0 exactly on equal strings. -/
theorem strcmp_eq_zero_iff (a b : String) : strcmp a b = 0 ↔ a = b := by
  unfold strcmp
  by_cases h : a = b
  · simp [h]
  · by_cases hlt : a < b <;> simp [h, hlt]

/-- C11: `get_curve_desc id` returns a descriptor if and only if `0 < id < PGP_CURVE_MAX`; for
`id = 0` and for every `id ≥ PGP_CURVE_MAX` it returns none; and a returned descriptor `d`
has `d.rnp_curve_id = id`. -/
theorem get_curve_desc_spec (id : pgp_curve_t) :
    ((get_curve_desc id).isSome = true ↔ 0 < id ∧ id < PGP_CURVE_MAX) ∧
    (id = 0 ∨ PGP_CURVE_MAX ≤ id → get_curve_desc id = none) ∧
    (∀ d, get_curve_desc id = some d → d.rnp_curve_id = id) := by
  refine ⟨?_, get_curve_desc_none_of_out_of_range id, ?_⟩
  · unfold get_curve_desc
    by_cases h : id < PGP_CURVE_MAX ∧ id > 0
    · simp [h]
    · simp only [if_neg h, Option.isSome_none]
      constructor
      · intro hf; exact absurd hf (by decide)
      · intro hc; exact absurd ⟨hc.2, hc.1⟩ h
  · intro d hd
    unfold get_curve_desc at hd
    by_cases h : id < PGP_CURVE_MAX ∧ id > 0
    · rw [if_pos h] at hd
      obtain rfl : ec_curves_at id = d := Option.some.inj hd
      have h1 : (id : Nat) < 6 := h.1
      have h2 : 0 < (id : Nat) := h.2
      clear hd h
      interval_cases id <;> rfl
    · rw [if_neg h] at hd
      exact absurd hd (by simp)

/-- C11 at the two sentinels and at NIST P-521: none for 0 and for `PGP_CURVE_MAX`, and the
descriptor returned for P-521 carries the id of P-521. -/
theorem get_curve_desc_spec_at_bounds :
    get_curve_desc 0 = none ∧ get_curve_desc PGP_CURVE_MAX = none ∧
    (get_curve_desc PGP_CURVE_NIST_P_521).isSome = true ∧
    (ec_curves_at 3).rnp_curve_id = PGP_CURVE_NIST_P_521 :=
  ⟨(get_curve_desc_spec 0).2.1 (Or.inl rfl),
   (get_curve_desc_spec PGP_CURVE_MAX).2.1 (Or.inr (Nat.le_refl _)),
   (get_curve_desc_spec PGP_CURVE_NIST_P_521).1.2 ⟨by decide, by decide⟩,
   (get_curve_desc_spec PGP_CURVE_NIST_P_521).2.2 (ec_curves_at 3) (by decide)⟩

/-- The test of the name scan fails on two different strings. -/
theorem strcmp_beq_zero_of_ne (a b : String) (h : a ≠ b) : (strcmp a b == 0) = false := by
  have hne : strcmp a b ≠ 0 := fun h0 => h ((strcmp_eq_zero_iff a b).1 h0)
  simpa using hne

/-- The indices visited by the name scan. -/
theorem range_names : List.range' 1 (PGP_CURVE_MAX - 1) = [1, 2, 3, 4, 5] := by decide

/-- The name scan, test by test: the first display name equal to the argument decides. -/
theorem find_curve_by_name_eq (s : String) :
    find_curve_by_name s =
      if "NIST P-256" = s then 1 else if "NIST P-384" = s then 2
      else if "NIST P-521" = s then 3 else if "Ed25519" = s then 4
      else if "SM2 P-256" = s then 5 else PGP_CURVE_MAX := by
  have e1 : (ec_curves_at 1).pgp_name = some "NIST P-256" := rfl
  have e2 : (ec_curves_at 2).pgp_name = some "NIST P-384" := rfl
  have e3 : (ec_curves_at 3).pgp_name = some "NIST P-521" := rfl
  have e4 : (ec_curves_at 4).pgp_name = some "Ed25519" := rfl
  have e5 : (ec_curves_at 5).pgp_name = some "SM2 P-256" := rfl
  have t : ∀ a : String, (strcmp a s == 0) = decide (a = s) := by
    intro a
    by_cases h : a = s
    · simp [h, (strcmp_eq_zero_iff s s).2 rfl]
    · simp [h, strcmp_beq_zero_of_ne a s h]
  unfold find_curve_by_name
  rw [range_names]
  simp only [List.find?_cons, List.find?_nil, e1, e2, e3, e4, e5, t]
  by_cases h1 : "NIST P-256" = s
  · simp only [h1, decide_True, if_true]; subst h1; rfl
  by_cases h2 : "NIST P-384" = s
  · simp only [h1, h2, decide_True, decide_False, if_true, if_false]; subst h2; rfl
  by_cases h3 : "NIST P-521" = s
  · simp only [h1, h2, h3, decide_True, decide_False, if_true, if_false]; subst h3; rfl
  by_cases h4 : "Ed25519" = s
  · simp only [h1, h2, h3, h4, decide_True, decide_False, if_true, if_false]; subst h4; rfl
  by_cases h5 : "SM2 P-256" = s
  · simp only [h1, h2, h3, h4, h5, decide_True, decide_False, if_true, if_false]; subst h5; rfl
  simp only [h1, h2, h3, h4, h5, decide_False, if_false]

/-- C12: for every curve id `i` with `0 < i < PGP_CURVE_MAX`, row `i` has a display name,
`get_curve_desc i` is row `i`, and `find_curve_by_name` on that display name returns `i`. -/
theorem find_curve_by_name_round_trip (i : pgp_curve_t) (h0 : 0 < i) (h1 : i < PGP_CURVE_MAX) :
    ∃ name, get_curve_desc i = some (ec_curves_at i) ∧
      (ec_curves_at i).pgp_name = some name ∧ find_curve_by_name name = i := by
  have h6 : i < 6 := h1
  interval_cases i
  · exact ⟨"NIST P-256", by decide, rfl, by rw [find_curve_by_name_eq]; decide⟩
  · exact ⟨"NIST P-384", by decide, rfl, by rw [find_curve_by_name_eq]; decide⟩
  · exact ⟨"NIST P-521", by decide, rfl, by rw [find_curve_by_name_eq]; decide⟩
  · exact ⟨"Ed25519", by decide, rfl, by rw [find_curve_by_name_eq]; decide⟩
  · exact ⟨"SM2 P-256", by decide, rfl, by rw [find_curve_by_name_eq]; decide⟩

/-- C12 at SM2 P-256, the last row of the table. -/
theorem find_curve_by_name_round_trip_sm2 :
    ∃ name, get_curve_desc PGP_CURVE_SM2_P_256 = some (ec_curves_at PGP_CURVE_SM2_P_256) ∧
      (ec_curves_at PGP_CURVE_SM2_P_256).pgp_name = some name ∧
      find_curve_by_name name = PGP_CURVE_SM2_P_256 :=
  find_curve_by_name_round_trip PGP_CURVE_SM2_P_256 (by decide) (by decide)

/-- C13: `find_curve_by_name` is exact and case-sensitive: a string that is not equal to one
of the five display names gives `PGP_CURVE_MAX`. -/
theorem find_curve_by_name_miss (s : String)
    (h : s ≠ "NIST P-256" ∧ s ≠ "NIST P-384" ∧ s ≠ "NIST P-521" ∧ s ≠ "Ed25519" ∧
      s ≠ "SM2 P-256") :
    find_curve_by_name s = PGP_CURVE_MAX := by
  obtain ⟨h1, h2, h3, h4, h5⟩ := h
  have e1 : (ec_curves_at 1).pgp_name = some "NIST P-256" := rfl
  have e2 : (ec_curves_at 2).pgp_name = some "NIST P-384" := rfl
  have e3 : (ec_curves_at 3).pgp_name = some "NIST P-521" := rfl
  have e4 : (ec_curves_at 4).pgp_name = some "Ed25519" := rfl
  have e5 : (ec_curves_at 5).pgp_name = some "SM2 P-256" := rfl
  unfold find_curve_by_name
  rw [range_names]
  simp only [List.find?_cons, List.find?_nil, e1, e2, e3, e4, e5,
    strcmp_beq_zero_of_ne _ s (Ne.symm h1), strcmp_beq_zero_of_ne _ s (Ne.symm h2),
    strcmp_beq_zero_of_ne _ s (Ne.symm h3), strcmp_beq_zero_of_ne _ s (Ne.symm h4),
    strcmp_beq_zero_of_ne _ s (Ne.symm h5)]

/-- C13 at the lower-case name "ed25519", at the empty string and at the provider name
"secp256r1": each gives `PGP_CURVE_MAX`. -/
theorem find_curve_by_name_miss_examples :
    find_curve_by_name "ed25519" = PGP_CURVE_MAX ∧ find_curve_by_name "" = PGP_CURVE_MAX ∧
    find_curve_by_name "secp256r1" = PGP_CURVE_MAX :=
  ⟨find_curve_by_name_miss "ed25519" (by decide),
   find_curve_by_name_miss "" (by decide),
   find_curve_by_name_miss "secp256r1" (by decide)⟩

/-- C15: the descriptor of each curve holds the wire constants: bit length, OID bytes, the
number of OID bytes listed, the stated OID length (equal to that number) and the provider
name. -/
theorem ec_curves_wire_constants :
    (get_curve_desc PGP_CURVE_NIST_P_256).map
        (fun d => (d.bitlen, d.OIDhex, d.OIDhex.length, d.OIDhex_len, d.botan_name))
      = some (256, [0x2A, 0x86, 0x48, 0xCE, 0x3D, 0x03, 0x01, 0x07], 8, 8, some "secp256r1") ∧
    (get_curve_desc PGP_CURVE_NIST_P_384).map
        (fun d => (d.bitlen, d.OIDhex, d.OIDhex.length, d.OIDhex_len, d.botan_name))
      = some (384, [0x2B, 0x81, 0x04, 0x00, 0x22], 5, 5, some "secp384r1") ∧
    (get_curve_desc PGP_CURVE_NIST_P_521).map
        (fun d => (d.bitlen, d.OIDhex, d.OIDhex.length, d.OIDhex_len, d.botan_name))
      = some (521, [0x2B, 0x81, 0x04, 0x00, 0x23], 5, 5, some "secp521r1") ∧
    (get_curve_desc PGP_CURVE_ED25519).map
        (fun d => (d.bitlen, d.OIDhex, d.OIDhex.length, d.OIDhex_len, d.botan_name))
      = some (255, [0x2B, 0x06, 0x01, 0x04, 0x01, 0xDA, 0x47, 0x0F, 0x01], 9, 9,
          some "Ed25519") ∧
    (get_curve_desc PGP_CURVE_SM2_P_256).map
        (fun d => (d.bitlen, d.OIDhex, d.OIDhex.length, d.OIDhex_len, d.botan_name))
      = some (256, [0x2A, 0x81, 0x1C, 0xCF, 0x55, 0x01, 0x82, 0x2D], 8, 8, some "sm2p256v1") := by
  refine ⟨?_, ?_, ?_, ?_, ?_⟩ <;> decide

/-- C16: for every index `i` with `0 < i < PGP_CURVE_MAX`, row `i` of the table carries the
id `i`; two different such rows differ in their OID (bytes together with length); and two
different such rows differ in their provider name. -/
theorem ec_curves_invariant :
    (∀ i, 0 < i → i < PGP_CURVE_MAX → (ec_curves_at i).rnp_curve_id = i) ∧
    (∀ i j, 0 < i → i < PGP_CURVE_MAX → 0 < j → j < PGP_CURVE_MAX → i ≠ j →
      ((ec_curves_at i).OIDhex, (ec_curves_at i).OIDhex_len)
        ≠ ((ec_curves_at j).OIDhex, (ec_curves_at j).OIDhex_len)) ∧
    (∀ i j, 0 < i → i < PGP_CURVE_MAX → 0 < j → j < PGP_CURVE_MAX → i ≠ j →
      (ec_curves_at i).botan_name ≠ (ec_curves_at j).botan_name) := by
  refine ⟨?_, ?_, ?_⟩
  · intro i h0 h1
    have h6 : i < 6 := h1
    interval_cases i <;> rfl
  · intro i j hi0 hi hj0 hj hne
    have hi6 : i < 6 := hi
    have hj6 : j < 6 := hj
    interval_cases i <;> interval_cases j <;> first | exact absurd rfl hne | decide
  · intro i j hi0 hi hj0 hj hne
    have hi6 : i < 6 := hi
    have hj6 : j < 6 := hj
    interval_cases i <;> interval_cases j <;> first | exact absurd rfl hne | decide

/-- C16 at the rows of NIST P-384 and NIST P-521, whose OIDs differ in the last byte only. -/
theorem ec_curves_invariant_p384_p521 :
    (ec_curves_at 2).rnp_curve_id = 2 ∧
    ((ec_curves_at 2).OIDhex, (ec_curves_at 2).OIDhex_len)
      ≠ ((ec_curves_at 3).OIDhex, (ec_curves_at 3).OIDhex_len) ∧
    (ec_curves_at 2).botan_name ≠ (ec_curves_at 3).botan_name :=
  ⟨ec_curves_invariant.1 2 (by decide) (by decide),
   ec_curves_invariant.2.1 2 3 (by decide) (by decide) (by decide) (by decide) (by decide),
   ec_curves_invariant.2.2 2 3 (by decide) (by decide) (by decide) (by decide) (by decide)⟩

/-! ## Claims on the output record -/

/-- C14: on a successful `ec_generate` call for a curve with descriptor `d`, the array of the
public point keeps its capacity, and every byte at an index from `len = 2 * fb + 1` up to the
capacity is zero, whatever the array held before the call (`fb = BITS_TO_BYTES d.bitlen`). -/
theorem ec_generate_tail_zero (P : Provider) (rng : Nat) (key : pgp_ec_key_t)
    (alg_id : pgp_pubkey_alg_t) (curve : pgp_curve_t) (d : ec_curve_desc_t)
    (hd : get_curve_desc curve = some d)
    (hcap : 2 * BITS_TO_BYTES d.bitlen + 1 ≤ key.p.mpi.length)
    (hs : (ec_generate P rng key alg_id curve).ret = .RNP_SUCCESS) :
    (ec_generate P rng key alg_id curve).key.p.len = 2 * BITS_TO_BYTES d.bitlen + 1 ∧
    (ec_generate P rng key alg_id curve).key.p.mpi.length = key.p.mpi.length ∧
    (∀ i, (ec_generate P rng key alg_id curve).key.p.len ≤ i → i < key.p.mpi.length →
      (ec_generate P rng key alg_id curve).key.p.mpi[i]? = some 0) := by
  obtain ⟨d2, pr, pu, bx, b_y, bs, vx, vy, vs, hd2, -, -, -, -, -, -, -, -, hwx, hwy, hkey⟩ :=
    ec_generate_success_inv P rng key alg_id curve hs
  obtain rfl : d = d2 := Option.some.inj (hd.symm.trans hd2)
  have hmpi := ec_generate_encode_mpi key (BITS_TO_BYTES d.bitlen) vx vy vs hwx hwy hcap
  have hA := length_pad_left (BITS_TO_BYTES d.bitlen) (bn_bn2bin vx) hwx
  have hB := length_pad_left (BITS_TO_BYTES d.bitlen) (bn_bn2bin vy) hwy
  have hL : (4 :: (pad_left (BITS_TO_BYTES d.bitlen) (bn_bn2bin vx)
      ++ pad_left (BITS_TO_BYTES d.bitlen) (bn_bn2bin vy))).length
        = 2 * BITS_TO_BYTES d.bitlen + 1 := by
    simp [hA, hB]; omega
  have hlen : (ec_generate_encode key (BITS_TO_BYTES d.bitlen) vx vy vs).p.len
      = 2 * BITS_TO_BYTES d.bitlen + 1 := rfl
  rw [hkey, hlen, hmpi]
  refine ⟨rfl, ?_, ?_⟩
  · rw [List.length_append, hL, List.length_replicate]
    omega
  · intro i hi hcapi
    rw [List.getElem?_append_right (by rw [hL]; exact hi), hL, List.getElem?_replicate]
    rw [if_pos (by omega)]

/-- C14 at P-256 on a 70-byte array that held the byte 9 everywhere: the call succeeds, the
length is 65, the capacity stays 70 and the bytes 65 to 69 are zero. -/
theorem ec_generate_tail_zero_p256 :
    (ec_generate (scripted 1 2 7) 0 (blank_key 70 9) .PGP_PKA_ECDSA PGP_CURVE_NIST_P_256).ret
      = .RNP_SUCCESS ∧
    (ec_generate (scripted 1 2 7) 0 (blank_key 70 9) .PGP_PKA_ECDSA
      PGP_CURVE_NIST_P_256).key.p.len = 65 ∧
    (ec_generate (scripted 1 2 7) 0 (blank_key 70 9) .PGP_PKA_ECDSA
      PGP_CURVE_NIST_P_256).key.p.mpi.length = 70 ∧
    (∀ i, 65 ≤ i → i < 70 →
      (ec_generate (scripted 1 2 7) 0 (blank_key 70 9) .PGP_PKA_ECDSA
        PGP_CURVE_NIST_P_256).key.p.mpi[i]? = some 0) := by
  have h := ec_generate_tail_zero (scripted 1 2 7) 0 (blank_key 70 9) .PGP_PKA_ECDSA
    PGP_CURVE_NIST_P_256 (ec_curves_at 1) (by decide) (by decide) (by decide)
  exact ⟨by decide, h.1, h.2.1, h.2.2⟩

/-- C17: whenever `ec_generate` returns a status other than `RNP_SUCCESS`, the key record of
the caller is what it was before the call: public point bytes, its `len` and the secret
scalar. -/
theorem ec_generate_failure_keeps_key (P : Provider) (rng : Nat) (key : pgp_ec_key_t)
    (alg_id : pgp_pubkey_alg_t) (curve : pgp_curve_t)
    (hf : (ec_generate P rng key alg_id curve).ret ≠ .RNP_SUCCESS) :
    (ec_generate P rng key alg_id curve).key = key := by
  simp only [ec_generate, ec_generate_body] at hf ⊢
  repeat' split
  all_goals first | rfl | (simp_all)

/-- C17 on a provider that fails at the read of `public_y`, on a key record that held the
byte 9 everywhere. -/
theorem ec_generate_failure_keeps_key_public_y :
    (ec_generate
      { scripted 1 2 7 with
        botan_pubkey_get_field := fun _ f => if f = "public_x" then some 1 else none }
      0 (blank_key 65 9) .PGP_PKA_ECDSA PGP_CURVE_NIST_P_256).ret = .RNP_ERROR_KEY_GENERATION ∧
    (ec_generate
      { scripted 1 2 7 with
        botan_pubkey_get_field := fun _ f => if f = "public_x" then some 1 else none }
      0 (blank_key 65 9) .PGP_PKA_ECDSA PGP_CURVE_NIST_P_256).key = blank_key 65 9 :=
  ⟨by decide,
   ec_generate_failure_keeps_key
    { scripted 1 2 7 with
      botan_pubkey_get_field := fun _ f => if f = "public_x" then some 1 else none }
    0 (blank_key 65 9) .PGP_PKA_ECDSA PGP_CURVE_NIST_P_256 (by decide)⟩

/-! ## Claims on the order of steps -/

/-- The calls of the body follow the fixed order of steps, up to where the body stops. -/
theorem body_steps_in_order (P : Provider) (rng : Nat) (key : pgp_ec_key_t)
    (alg_id : pgp_pubkey_alg_t) (curve : pgp_curve_t) :
    (ec_generate_body P rng key alg_id curve).trace.map Call.step
      <+: [1, 2, 3, 3, 3, 4, 5, 6] := by
  simp only [ec_generate_body]
  repeat' split
  all_goals simp [Call.step]

/-- The first failed call of the body decides the status, and no call of a later step is made. -/
theorem body_first_failure (P : Provider) (rng : Nat) (key : pgp_ec_key_t)
    (alg_id : pgp_pubkey_alg_t) (curve : pgp_curve_t) (c : Call)
    (hc : (ec_generate_body P rng key alg_id curve).trace.find? Call.failed = some c) :
    (ec_generate_body P rng key alg_id curve).ret = c.failure_status ∧
    ∀ c2 ∈ (ec_generate_body P rng key alg_id curve).trace, c2.step ≤ c.step := by
  simp only [ec_generate_body] at hc ⊢
  repeat' split
  all_goals simp_all [Call.failed, List.find?_cons]
  all_goals try (subst hc; simp [Call.step, Call.failure_status])
  rcases h0 : P.bn_new 0 with _ | a <;> rcases h1 : P.bn_new 1 with _ | b <;>
    rcases h2 : P.bn_new 2 with _ | c3 <;> simp [h0, h1, h2] at hc <;>
    (subst hc; simp [Call.step, Call.failure_status])

/-- When the curve has a descriptor and no call failed, the body made every call and reached
the width check. -/
theorem body_no_failure (P : Provider) (rng : Nat) (key : pgp_ec_key_t)
    (alg_id : pgp_pubkey_alg_t) (curve : pgp_curve_t) (d : ec_curve_desc_t)
    (hd : get_curve_desc curve = some d)
    (hn : (ec_generate_body P rng key alg_id curve).trace.find? Call.failed = none) :
    (ec_generate_body P rng key alg_id curve).trace.map Call.step = [1, 2, 3, 3, 3, 4, 5, 6] ∧
    ((ec_generate_body P rng key alg_id curve).ret = .RNP_SUCCESS ∨
      (ec_generate_body P rng key alg_id curve).ret = .RNP_ERROR_BAD_PARAMETERS) := by
  simp only [ec_generate_body] at hn ⊢
  repeat' split
  all_goals simp_all [Call.failed, Call.step, List.find?_cons]
  rcases h0 : P.bn_new 0 with _ | a <;> rcases h1 : P.bn_new 1 with _ | b <;>
    rcases h2 : P.bn_new 2 with _ | c3 <;> simp_all

/-- C19: the calls of `ec_generate` before the epilogue follow the fixed order (creation,
export, the three allocations, `public_x`, `public_y`, private `x`) up to where the body
stops; without descriptor nothing is called and the status is bad-parameters; the first
failed call decides the status (out-of-memory for an allocation, key-generation-failure for a
provider step) and no call of a later step is made; without any failure all calls are made
and the width check decides between success and bad-parameters; the encoding runs on success
only; and when creation fails, it is the only call before the epilogue, whatever the
allocator would have answered. -/
theorem ec_generate_first_failure_wins (P : Provider) (rng : Nat) (key : pgp_ec_key_t)
    (alg_id : pgp_pubkey_alg_t) (curve : pgp_curve_t) :
    ((ec_generate_body P rng key alg_id curve).trace.map Call.step
      <+: [1, 2, 3, 3, 3, 4, 5, 6]) ∧
    (get_curve_desc curve = none →
      (ec_generate_body P rng key alg_id curve).ret = .RNP_ERROR_BAD_PARAMETERS ∧
      (ec_generate_body P rng key alg_id curve).trace = []) ∧
    (∀ c, (ec_generate_body P rng key alg_id curve).trace.find? Call.failed = some c →
      (ec_generate_body P rng key alg_id curve).ret = c.failure_status ∧
      ∀ c2 ∈ (ec_generate_body P rng key alg_id curve).trace, c2.step ≤ c.step) ∧
    (∀ d, get_curve_desc curve = some d →
      (ec_generate_body P rng key alg_id curve).trace.find? Call.failed = none →
      (ec_generate_body P rng key alg_id curve).trace.map Call.step
        = [1, 2, 3, 3, 3, 4, 5, 6] ∧
      ((ec_generate_body P rng key alg_id curve).ret = .RNP_SUCCESS ∨
        (ec_generate_body P rng key alg_id curve).ret = .RNP_ERROR_BAD_PARAMETERS)) ∧
    ((ec_generate_body P rng key alg_id curve).ret ≠ .RNP_SUCCESS →
      (ec_generate_body P rng key alg_id curve).key = key) ∧
    (∀ d, get_curve_desc curve = some d →
      P.botan_privkey_create (pgp_str_from_map alg_id ec_algo_to_botan) d.botan_name rng = none →
      (ec_generate_body P rng key alg_id curve).trace
        = [.botan_privkey_create (pgp_str_from_map alg_id ec_algo_to_botan) d.botan_name rng
            none] ∧
      (ec_generate P rng key alg_id curve).ret = .RNP_ERROR_KEY_GENERATION) ∧
    (ec_generate P rng key alg_id curve).ret = (ec_generate_body P rng key alg_id curve).ret ∧
    (ec_generate P rng key alg_id curve).trace
      = (ec_generate_body P rng key alg_id curve).trace
          ++ ec_generate_epilogue (ec_generate_body P rng key alg_id curve) := by
  refine ⟨body_steps_in_order P rng key alg_id curve, ?_,
    fun c hc => body_first_failure P rng key alg_id curve c hc,
    fun d hd hn => body_no_failure P rng key alg_id curve d hd hn, ?_, ?_, rfl, rfl⟩
  · intro hd
    simp [ec_generate_body, hd]
  · intro hf
    simp only [ec_generate_body] at hf ⊢
    repeat' split
    all_goals first | rfl | (simp_all)
  · intro d hd hc
    simp [ec_generate, ec_generate_body, hd, hc]

/-- C19 on a provider that refuses creation and whose allocator would give `NULL`: creation
is the only call before the epilogue and the status is key-generation-failure, not
out-of-memory. -/
theorem ec_generate_first_failure_wins_creation :
    (ec_generate_body refusing 0 (blank_key 65 9) .PGP_PKA_ECDSA PGP_CURVE_ED25519).trace
      = [.botan_privkey_create (some "ECDSA") (some "Ed25519") 0 none] ∧
    (ec_generate refusing 0 (blank_key 65 9) .PGP_PKA_ECDSA PGP_CURVE_ED25519).ret
      = .RNP_ERROR_KEY_GENERATION :=
  (ec_generate_first_failure_wins refusing 0 (blank_key 65 9) .PGP_PKA_ECDSA
    PGP_CURVE_ED25519).2.2.2.2.2.1 (ec_curves_at 4) (by decide) rfl

/-! ## Claims on the algorithm tag and on the width check -/

/-- A tag outside ECDH, ECDSA and SM2 has no row in `ec_algo_to_botan`. -/
theorem pgp_str_from_map_unknown (alg_id : pgp_pubkey_alg_t)
    (h : alg_id ≠ .PGP_PKA_ECDH ∧ alg_id ≠ .PGP_PKA_ECDSA ∧ alg_id ≠ .PGP_PKA_SM2) :
    pgp_str_from_map alg_id ec_algo_to_botan = none := by
  obtain ⟨h1, h2, h3⟩ := h
  cases alg_id with
  | PGP_PKA_ECDH => exact absurd rfl h1
  | PGP_PKA_ECDSA => exact absurd rfl h2
  | PGP_PKA_SM2 => exact absurd rfl h3
  | other n => rfl

/-- A call that returns `RNP_ERROR_BAD_PARAMETERS` either had no descriptor for the curve, or
went through every provider step and allocation and failed the width check. -/
theorem ec_generate_bad_parameters_inv (P : Provider) (rng : Nat) (key : pgp_ec_key_t)
    (alg_id : pgp_pubkey_alg_t) (curve : pgp_curve_t)
    (hb : (ec_generate P rng key alg_id curve).ret = .RNP_ERROR_BAD_PARAMETERS) :
    get_curve_desc curve = none ∨
    ∃ d pr pu vx vy vs,
      get_curve_desc curve = some d ∧
      P.botan_privkey_create (pgp_str_from_map alg_id ec_algo_to_botan) d.botan_name rng
        = some pr ∧
      P.botan_privkey_export_pubkey pr = some pu ∧
      P.botan_pubkey_get_field pu "public_x" = some vx ∧
      P.botan_pubkey_get_field pu "public_y" = some vy ∧
      P.botan_privkey_get_field pr "x" = some vs ∧
      (BITS_TO_BYTES d.bitlen < bn_num_bytes vx ∨ BITS_TO_BYTES d.bitlen < bn_num_bytes vy) := by
  simp only [ec_generate, ec_generate_body] at hb
  split at hb
  · rename_i hd
    exact Or.inl hd
  · rename_i d hd
    right
    split at hb
    · simp at hb
    · rename_i pr hpr
      split at hb
      · simp at hb
      · rename_i pu hpu
        split at hb
        · split at hb
          · simp at hb
          · rename_i vx hvx
            split at hb
            · simp at hb
            · rename_i vy hvy
              split at hb
              · simp at hb
              · rename_i vs hvs
                split at hb
                · rename_i hw
                  exact ⟨d, pr, pu, vx, vy, vs, hd, hpr, hpu, hvx, hvy, hvs, hw⟩
                · simp at hb
        · simp at hb

/-- C18 as stated fails: with the tag `other 1` on NIST P-256, a provider that refuses the
creation gives key-generation-failure, and a provider that accepts every step gives success;
in neither case is the status bad-parameters. -/
theorem ec_generate_unknown_tag_not_rejected :
    (ec_generate refusing 0 (blank_key 65 9) (.other 1) PGP_CURVE_NIST_P_256).ret
      = .RNP_ERROR_KEY_GENERATION ∧
    (ec_generate (scripted 1 2 7) 0 (blank_key 65 9) (.other 1) PGP_CURVE_NIST_P_256).ret
      = .RNP_SUCCESS ∧
    ¬ (∀ (P : Provider) (n : Nat),
        (ec_generate P 0 (blank_key 65 9) (.other n) PGP_CURVE_NIST_P_256).ret
          = .RNP_ERROR_BAD_PARAMETERS) := by
  refine ⟨by decide, by decide, ?_⟩
  intro h
  exact absurd (h refusing 1) (by decide)

/-- C18 (amended): for a tag outside ECDH, ECDSA and SM2 and a curve with descriptor `d`, the
generator does not reject the tag itself. The tag has no row in `ec_algo_to_botan`; the first
call made is the private key creation of the provider, with what the lookup gave; when the
provider refuses, the status is key-generation-failure; and the status is bad-parameters only
when the provider accepted the creation and every later step, and a coordinate is wider than
the field. -/
theorem ec_generate_unknown_tag (P : Provider) (rng : Nat) (key : pgp_ec_key_t)
    (alg_id : pgp_pubkey_alg_t) (curve : pgp_curve_t) (d : ec_curve_desc_t)
    (htag : alg_id ≠ .PGP_PKA_ECDH ∧ alg_id ≠ .PGP_PKA_ECDSA ∧ alg_id ≠ .PGP_PKA_SM2)
    (hd : get_curve_desc curve = some d) :
    pgp_str_from_map alg_id ec_algo_to_botan = none ∧
    (ec_generate P rng key alg_id curve).trace.head?
      = some (.botan_privkey_create none d.botan_name rng
          (P.botan_privkey_create none d.botan_name rng)) ∧
    (P.botan_privkey_create none d.botan_name rng = none →
      (ec_generate P rng key alg_id curve).ret = .RNP_ERROR_KEY_GENERATION) ∧
    ((ec_generate P rng key alg_id curve).ret = .RNP_ERROR_BAD_PARAMETERS →
      ∃ pr pu vx vy vs,
        P.botan_privkey_create none d.botan_name rng = some pr ∧
        P.botan_privkey_export_pubkey pr = some pu ∧
        P.botan_pubkey_get_field pu "public_x" = some vx ∧
        P.botan_pubkey_get_field pu "public_y" = some vy ∧
        P.botan_privkey_get_field pr "x" = some vs ∧
        (BITS_TO_BYTES d.bitlen < bn_num_bytes vx ∨
          BITS_TO_BYTES d.bitlen < bn_num_bytes vy)) := by
  have hmap := pgp_str_from_map_unknown alg_id htag
  refine ⟨hmap, ?_, ?_, ?_⟩
  · simp only [ec_generate, ec_generate_body, hd, hmap]
    repeat' split
    all_goals simp_all
  · intro hc
    simp [ec_generate, ec_generate_body, hd, hmap, hc]
  · intro hb
    rcases ec_generate_bad_parameters_inv P rng key alg_id curve hb with hn | h
    · rw [hn] at hd
      exact absurd hd (by simp)
    · obtain ⟨d2, pr, pu, vx, vy, vs, hd2, hpr, hpu, hx, hy, hsx, hw⟩ := h
      obtain rfl : d = d2 := Option.some.inj (hd.symm.trans hd2)
      rw [hmap] at hpr
      exact ⟨pr, pu, vx, vy, vs, hpr, hpu, hx, hy, hsx, hw⟩

/-- C18 (amended) at the tag `other 1` on NIST P-256 with a provider that refuses the
creation: creation is the first call and the status is key-generation-failure. -/
theorem ec_generate_unknown_tag_refused :
    (ec_generate refusing 0 (blank_key 65 9) (.other 1) PGP_CURVE_NIST_P_256).trace.head?
      = some (.botan_privkey_create none (some "secp256r1") 0 none) ∧
    (ec_generate refusing 0 (blank_key 65 9) (.other 1) PGP_CURVE_NIST_P_256).ret
      = .RNP_ERROR_KEY_GENERATION := by
  have h := ec_generate_unknown_tag refusing 0 (blank_key 65 9) (.other 1)
    PGP_CURVE_NIST_P_256 (ec_curves_at 1) (by decide) (by decide)
  exact ⟨h.2.1, h.2.2.1 rfl⟩

/-- A value below `256 ^ n` has at most `n` bytes. -/
theorem bn_num_bytes_le_of_lt (n v : Nat) (h : v < 256 ^ n) : bn_num_bytes v ≤ n := by
  induction n generalizing v with
  | zero =>
    have hv : v = 0 := by simpa using h
    subst hv
    exact Nat.le_refl 0
  | succ n ih =>
    by_cases hv : v = 0
    · subst hv
      exact Nat.zero_le _
    · have hdiv : v / 256 < 256 ^ n := by
        rw [Nat.div_lt_iff_lt_mul (by decide)]
        rw [Nat.pow_succ] at h
        exact h
      have := ih (v / 256) hdiv
      unfold bn_num_bytes at this ⊢
      rw [bn_bn2bin_pos v hv, List.length_append]
      simpa using this

/-- A value below `2 ^ bits` has at most `BITS_TO_BYTES bits` bytes. -/
theorem bn_num_bytes_le_field (bits v : Nat) (h : v < 2 ^ bits) :
    bn_num_bytes v ≤ BITS_TO_BYTES bits := by
  apply bn_num_bytes_le_of_lt
  have h8 : bits ≤ 8 * BITS_TO_BYTES bits := by
    unfold BITS_TO_BYTES
    omega
  calc v < 2 ^ bits := h
    _ ≤ 2 ^ (8 * BITS_TO_BYTES bits) := Nat.pow_le_pow_right (by decide) h8
    _ = 256 ^ BITS_TO_BYTES bits := by rw [Nat.pow_mul]

/-- C20: for a curve with descriptor `d` and coordinates `vx`, `vy` below `2 ^ d.bitlen`,
the byte lengths of both are at most `BITS_TO_BYTES d.bitlen` (66 for 521 bits, 32 for 255),
so the two destination offsets do not go below zero, and when every provider step and
allocation succeeds `ec_generate` returns `RNP_SUCCESS`. -/
theorem ec_generate_width_check_passes (P : Provider) (rng : Nat) (key : pgp_ec_key_t)
    (alg_id : pgp_pubkey_alg_t) (curve : pgp_curve_t) (d : ec_curve_desc_t)
    (pr pu : Handle) (vx vy vs : Nat)
    (hd : get_curve_desc curve = some d)
    (hpr : P.botan_privkey_create (pgp_str_from_map alg_id ec_algo_to_botan) d.botan_name rng
      = some pr)
    (hpu : P.botan_privkey_export_pubkey pr = some pu)
    (halloc : ∃ bx b_y bs, P.bn_new 0 = some bx ∧ P.bn_new 1 = some b_y ∧ P.bn_new 2 = some bs)
    (hx : P.botan_pubkey_get_field pu "public_x" = some vx)
    (hy : P.botan_pubkey_get_field pu "public_y" = some vy)
    (hsx : P.botan_privkey_get_field pr "x" = some vs)
    (hvx : vx < 2 ^ d.bitlen) (hvy : vy < 2 ^ d.bitlen) :
    bn_num_bytes vx ≤ BITS_TO_BYTES d.bitlen ∧
    bn_num_bytes vy ≤ BITS_TO_BYTES d.bitlen ∧
    (0 : Int) ≤ 1 + (BITS_TO_BYTES d.bitlen : Int) - (bn_num_bytes vx : Int) ∧
    (0 : Int) ≤ 1 + 2 * (BITS_TO_BYTES d.bitlen : Int) - (bn_num_bytes vy : Int) ∧
    1 + BITS_TO_BYTES d.bitlen + (BITS_TO_BYTES d.bitlen - bn_num_bytes vy) + bn_num_bytes vy
      = 1 + 2 * BITS_TO_BYTES d.bitlen ∧
    BITS_TO_BYTES 521 = 66 ∧ BITS_TO_BYTES 255 = 32 ∧
    (ec_generate P rng key alg_id curve).ret = .RNP_SUCCESS := by
  have hwx := bn_num_bytes_le_field d.bitlen vx hvx
  have hwy := bn_num_bytes_le_field d.bitlen vy hvy
  obtain ⟨bx, b_y, bs, hbx, hby, hbs⟩ := halloc
  have hw : ¬ (bn_num_bytes vx > BITS_TO_BYTES d.bitlen ∨
      bn_num_bytes vy > BITS_TO_BYTES d.bitlen) := by
    intro h
    rcases h with h | h <;> omega
  refine ⟨hwx, hwy, by omega, by omega, by omega, by decide, by decide, ?_⟩
  simp [ec_generate, ec_generate_body, hd, hpr, hpu, hbx, hby, hbs, hx, hy, hsx, hw]

/-- C20 at Ed25519 with `X = 2 ^ 255 - 1`, the largest value of 255 bits, and `Y = 0`: `X`
has 32 bytes, the field width, and the call succeeds. -/
theorem ec_generate_width_check_passes_ed25519 :
    bn_num_bytes (2 ^ 255 - 1) = 32 ∧ bn_num_bytes 0 = 0 ∧
    (ec_generate (scripted (2 ^ 255 - 1) 0 7) 0 (blank_key 65 9) .PGP_PKA_ECDSA
      PGP_CURVE_ED25519).ret = .RNP_SUCCESS :=
  ⟨by decide, by decide,
   (ec_generate_width_check_passes (scripted (2 ^ 255 - 1) 0 7) 0 (blank_key 65 9)
      .PGP_PKA_ECDSA PGP_CURVE_ED25519 (ec_curves_at 4) 1 2 (2 ^ 255 - 1) 0 7 (by decide)
      rfl rfl ⟨3, 4, 5, rfl, rfl, rfl⟩ rfl rfl rfl (by decide) (by decide)).2.2.2.2.2.2.2⟩

end EC
